import Mathlib

/-!
Verification of the UFS host-controller core (drivers/scsi/ufs/ufshcd.c):
a shallow embedding of the command-slot, completion-reconciliation,
clock-gating, UIC (link-control) and clock/gear-scaling logic, with
theorems checking the natural-language specification against the code.

Machine integers are modelled as `Nat` bitmasks (`testBit`, `|||`, `^^^`),
the per-adapter `struct ufs_hba` as a Lean structure, and each C function
as a pure state transformer.  Concurrency is modelled at the granularity
of the host-lock critical sections: an inductive step relation whose
constructors are the locked sections of the source functions.
-/

namespace UFS

/-- Set bit `i` of mask `m` (the C `__set_bit` / `test_and_set_bit_lock` write). -/
def setBit (m i : Nat) : Nat := m ||| (1 <<< i)

/-- Clear bit `i` of mask `m` (the C `__clear_bit` / `clear_bit_unlock`). -/
def clearBit (m i : Nat) : Nat := if m.testBit i then m ^^^ (1 <<< i) else m

theorem testBit_one_shiftLeft (i j : Nat) :
    (1 <<< i).testBit j = decide (i = j) := by
  rw [Nat.shiftLeft_eq, one_mul]
  rcases eq_or_ne i j with h | h
  · simp [h, Nat.testBit_two_pow_self]
  · simp [h, Nat.testBit_two_pow_of_ne h]

theorem testBit_setBit (m i j : Nat) :
    (setBit m i).testBit j = (m.testBit j || decide (i = j)) := by
  rw [setBit, Nat.testBit_lor, testBit_one_shiftLeft]

theorem testBit_setBit_self (m i : Nat) : (setBit m i).testBit i = true := by
  simp [testBit_setBit]

theorem testBit_setBit_ne (m : Nat) {i j : Nat} (h : i ≠ j) :
    (setBit m i).testBit j = m.testBit j := by
  simp [testBit_setBit, h]

theorem testBit_clearBit_self (m i : Nat) : (clearBit m i).testBit i = false := by
  unfold clearBit
  rcases hb : m.testBit i with _ | _
  · simp [hb]
  · simp [hb, Nat.testBit_xor, testBit_one_shiftLeft]

theorem testBit_clearBit_ne (m : Nat) {i j : Nat} (h : i ≠ j) :
    (clearBit m i).testBit j = m.testBit j := by
  unfold clearBit
  rcases hb : m.testBit i with _ | _
  · simp [hb]
  · rw [if_pos rfl, Nat.testBit_xor, testBit_one_shiftLeft]
    simp [h]

theorem eq_zero_of_testBit_false {m : Nat} (h : ∀ i, m.testBit i = false) : m = 0 :=
  Nat.eq_of_testBit_eq (fun i => by simp [h i])

/-! ## Data model

Enumerations of ufshcd.c / ufshci.h.  The numeric values of the
enumerators play no role in the verified claims, so the enums are kept
symbolic. -/

/-- enum clk_gating_state. -/
inductive ClkState
  | CLKS_OFF | CLKS_ON | REQ_CLKS_OFF | REQ_CLKS_ON
deriving DecidableEq, Repr

/-- The UFSHCD_STATE_* run states of the controller. -/
inductive RunState
  | RESET | OPERATIONAL | ERROR | EH_SCHEDULED_FATAL | EH_SCHEDULED_NON_FATAL
deriving DecidableEq, Repr

/-- Overall command status (OCS) field of a transfer-request descriptor. -/
inductive Ocs
  | SUCCESS | ABORTED | INVALID_COMMAND_STATUS
  | INVALID_CMD_TABLE_ATTR | INVALID_PRDT_ATTR
  | MISMATCH_DATA_BUF_SIZE | MISMATCH_RESP_UPIU_SIZE
  | PEER_COMM_FAILURE | FATAL_ERROR
  | INVALID_CRYPTO_CONFIG | GENERAL_CRYPTO_ERROR
deriving DecidableEq, Repr

/-- SCSI status byte carried by a response UPIU (the SAM_STAT_* cases
distinguished by ufshcd_scsi_cmd_status). -/
inductive ScsiStatus
  | GOOD | CHECK_CONDITION | BUSY | TASK_SET_FULL | TASK_ABORTED | OTHER
deriving DecidableEq, Repr

/-- The transaction type of a response UPIU, as read by ufshcd_get_req_rsp
(only the cases distinguished by ufshcd_transfer_rsp_status). -/
inductive UpiuRsp
  | response (st : ScsiStatus) | reject | unknown
deriving DecidableEq, Repr

/-- SCSI midlayer host-byte classification (DID_*) written into cmd->result. -/
inductive HostByte
  | DID_OK | DID_ABORT | DID_REQUEUE | DID_ERROR | DID_BAD_TARGET
deriving DecidableEq, Repr

/-- The caller-visible outcome of one completed command: the host byte of
cmd->result plus whether sense data was copied back (ufshcd_copy_sense_data). -/
structure CmdResult where
  host : HostByte
  senseCopied : Bool
deriving DecidableEq, Repr

/-- A local reference block (struct ufshcd_lrb), restricted to the fields
the completion path reads: the in-flight SCSI command handle (modelled as
the Boolean cmd ≠ NULL), the device-management command type test
(command_type ∈ {UTP_CMD_TYPE_DEV_MANAGE, UTP_CMD_TYPE_UFS_STORAGE}),
and the descriptor status fields. -/
structure Lrb where
  cmd : Bool
  devManage : Bool
  ocs : Ocs
  rsp : UpiuRsp
deriving DecidableEq, Repr

/-- ufshcd_scsi_cmd_status (ufshcd.c:5196-5222): maps the SCSI status of a
response UPIU to cmd->result; CHECK_CONDITION falls through to GOOD after
copying sense data; TASK_SET_FULL/BUSY/TASK_ABORTED copy sense data and
keep host byte DID_OK (result |= scsi_status only); anything else is
DID_ERROR. -/
def ufshcd_scsi_cmd_status : ScsiStatus → CmdResult
  | .CHECK_CONDITION => ⟨.DID_OK, true⟩
  | .GOOD            => ⟨.DID_OK, false⟩
  | .TASK_SET_FULL   => ⟨.DID_OK, true⟩
  | .BUSY            => ⟨.DID_OK, true⟩
  | .TASK_ABORTED    => ⟨.DID_OK, true⟩
  | .OTHER           => ⟨.DID_ERROR, false⟩

/-- ufshcd_transfer_rsp_status (ufshcd.c:5231-5346), for a host without the
UFSHCD_QUIRK_BROKEN_OCS_FATAL_ERROR quirk: OCS_SUCCESS dispatches on the
response UPIU transaction type, OCS_ABORTED maps to DID_ABORT,
OCS_INVALID_COMMAND_STATUS to DID_REQUEUE, and every remaining status
(including the crypto and fatal codes) to DID_ERROR. -/
def ufshcd_transfer_rsp_status (l : Lrb) : CmdResult :=
  match l.ocs with
  | .SUCCESS =>
    match l.rsp with
    | .response st => ufshcd_scsi_cmd_status st
    | .reject      => ⟨.DID_ERROR, false⟩
    | .unknown     => ⟨.DID_ERROR, false⟩
  | .ABORTED => ⟨.DID_ABORT, false⟩
  | .INVALID_COMMAND_STATUS => ⟨.DID_REQUEUE, false⟩
  | _ => ⟨.DID_ERROR, false⟩

/-- Ghost program counter of the deferred gate worker (ufshcd_gate_work):
idle = not running (or before its first locked section), checked = the
locked re-validation passed and the lock was dropped, hib = its own
hibern8-enter UIC operation is in flight, ready = past hibern8 and the
clock cut, about to take the lock again and commit CLKS_OFF. -/
inductive GatePC
  | idle | checked | hib | ready
deriving DecidableEq, Repr

/-- The per-adapter state (struct ufs_hba), restricted to the fields used
by the slot table, transfer-completion, clock-gating and UIC logic, plus
ghost fields recording the notifications delivered to callers.
active_reqs is the clk_gating.active_reqs counter (a C int, hence Int);
tr_doorbell is the hardware REG_UTP_TRANSFER_REQ_DOOR_BELL register;
doneCalls records the scsi_done(cmd) notifications as (tag, result) pairs
and devCmdNotified counts complete(hba->dev_cmd.complete) calls. -/
structure Hba where
  nutrs : Nat
  lrb : Nat → Lrb
  lrb_in_use : Nat
  outstanding_reqs : Nat
  outstanding_tasks : Nat
  tr_doorbell : Nat
  ufshcd_state : RunState
  pm_op_in_progress : Bool
  clk_gating_state : ClkState
  active_reqs : Int
  is_suspended : Bool
  gate_work_pending : Bool
  gate_pc : GatePC
  active_uic_cmd : Bool
  uic_async_done : Bool
  dev_cmd_complete : Bool
  doneCalls : List (Nat × CmdResult)
  devCmdNotified : Nat

/-- The locked body of __ufshcd_release (ufshcd.c:1963-1981), in the
clock-gating-allowed configuration: decrement active_reqs; if the counter
is still nonzero, gating is suspended, the controller is not OPERATIONAL,
any transfer slot is claimed, any task is outstanding, or a UIC command or
power-mode transition is active, return; otherwise request deferred gating
(state := REQ_CLKS_OFF and queue the delayed gate work). -/
def ufshcd_release_locked (h : Hba) : Hba :=
  if h.active_reqs - 1 ≠ 0 ∨ h.is_suspended ∨ h.ufshcd_state ≠ .OPERATIONAL ∨
      h.lrb_in_use ≠ 0 ∨ h.outstanding_tasks ≠ 0 ∨
      h.active_uic_cmd ∨ h.uic_async_done then
    { h with active_reqs := h.active_reqs - 1 }
  else
    { h with active_reqs := h.active_reqs - 1,
             clk_gating_state := .REQ_CLKS_OFF, gate_work_pending := true }

/-- One iteration of the for_each_set_bit loop of
__ufshcd_transfer_req_compl (ufshcd.c:5403-5450), at bit index `index` of
`completed_reqs`: a slot holding a SCSI command has its result computed
from the descriptor, its cmd pointer cleared, its lrb_in_use bit released
(clear_bit_unlock), its caller notified (scsi_done) and the gating
reference dropped (__ufshcd_release); a device-management slot signals
hba->dev_cmd.complete instead; any other set bit is ignored. -/
def compl_one (completed_reqs : Nat) (h : Hba) (index : Nat) : Hba :=
  if completed_reqs.testBit index then
    if (h.lrb index).cmd then
      ufshcd_release_locked
        { h with
          lrb := fun j => if j = index then { h.lrb index with cmd := false }
                          else h.lrb j,
          lrb_in_use := clearBit h.lrb_in_use index,
          doneCalls := h.doneCalls ++
            [(index, ufshcd_transfer_rsp_status (h.lrb index))] }
    else if (h.lrb index).devManage then
      if h.dev_cmd_complete then { h with devCmdNotified := h.devCmdNotified + 1 }
      else h
    else h
  else h

/-- __ufshcd_transfer_req_compl (ufshcd.c:5390-5464): iterate over the set
bits of completed_reqs below nutrs, handling each completion, then clear
the corresponding bits of the outstanding mask by XOR
(hba->outstanding_reqs ^= completed_reqs). -/
def __ufshcd_transfer_req_compl (h : Hba) (completed_reqs : Nat) : Hba :=
  let h2 := (List.range h.nutrs).foldl (compl_one completed_reqs) h
  { h2 with outstanding_reqs := h2.outstanding_reqs ^^^ completed_reqs }

/-- Return value of an interrupt service routine. -/
inductive IrqRet
  | handled | notHandled
deriving DecidableEq, Repr

/-- ufshcd_transfer_req_compl (ufshcd.c:5474-5499): snapshot the doorbell
register, compute completed_reqs = tr_doorbell XOR outstanding_reqs, and
if it is nonempty run the completion pass and report IRQ_HANDLED,
otherwise report IRQ_NONE. -/
def ufshcd_transfer_req_compl (h : Hba) : Hba × IrqRet :=
  let tr_doorbell := h.tr_doorbell
  let completed_reqs := tr_doorbell ^^^ h.outstanding_reqs
  if completed_reqs ≠ 0 then
    (__ufshcd_transfer_req_compl h completed_reqs, .handled)
  else
    (h, .notHandled)

/-! ## Clock gating -/

/-- The first locked section of ufshcd_gate_work (ufshcd.c:1885-1911): the
delayed work has fired (gate_work_pending is consumed); if the state is
already CLKS_OFF, return; if gating is suspended or the state is no longer
REQ_CLKS_OFF, record CLKS_ON and return; if there are active gating
references, the controller is not OPERATIONAL, a transfer slot is claimed,
a task is outstanding, or a UIC command or power-mode transition is
active, return without gating; otherwise drop the lock and proceed
(gate_pc := checked) towards hibern8 entry and the clock cut. -/
def ufshcd_gate_work_check (h : Hba) : Hba :=
  if h.clk_gating_state = .CLKS_OFF then
    { h with gate_work_pending := false }
  else if h.is_suspended ∨ h.clk_gating_state ≠ .REQ_CLKS_OFF then
    { h with gate_work_pending := false, clk_gating_state := .CLKS_ON }
  else if h.active_reqs ≠ 0 ∨ h.ufshcd_state ≠ .OPERATIONAL ∨
      h.lrb_in_use ≠ 0 ∨ h.outstanding_tasks ≠ 0 ∨
      h.active_uic_cmd ∨ h.uic_async_done then
    { h with gate_work_pending := false }
  else
    { h with gate_work_pending := false, gate_pc := .checked }

/-- Linux errno values used by ufshcd.c for the paths modelled here
(include/uapi/asm-generic/errno*.h, outside this repository snapshot). -/
def EAGAIN : Int := 11

def ETIMEDOUT : Int := 110

/-- ufshcd_hold with async = true (ufshcd.c:1793-1875), in the
clock-gating-allowed configuration.  can_hibern8 and link_hibern8 stand
for ufshcd_can_hibern8_during_gating and ufshcd_is_link_hibern8.  The
counter is incremented on entry; every non-blocking early return with
-EAGAIN decrements it again.  From CLKS_OFF (or REQ_CLKS_OFF when the
pending gate work can no longer be cancelled) the state advances to
REQ_CLKS_ON and the ungate work is queued before the -EAGAIN return. -/
def ufshcd_hold_async (can_hibern8 link_hibern8 : Bool) (h : Hba) : Int × Hba :=
  let h := { h with active_reqs := h.active_reqs + 1 }
  match h.clk_gating_state with
  | .CLKS_ON =>
    if can_hibern8 ∧ link_hibern8 then
      (-EAGAIN, { h with active_reqs := h.active_reqs - 1 })
    else (0, h)
  | .REQ_CLKS_OFF =>
    if h.gate_work_pending then
      (0, { h with clk_gating_state := .CLKS_ON, gate_work_pending := false })
    else
      -- cancel failed: fall through the CLKS_OFF and REQ_CLKS_ON cases
      (-EAGAIN, { h with clk_gating_state := .REQ_CLKS_ON,
                         active_reqs := h.active_reqs - 1 })
  | .CLKS_OFF =>
    (-EAGAIN, { h with clk_gating_state := .REQ_CLKS_ON,
                       active_reqs := h.active_reqs - 1 })
  | .REQ_CLKS_ON =>
    (-EAGAIN, { h with active_reqs := h.active_reqs - 1 })

/-! ## Tag selection -/

/-- find_last_bit over the free tags: the one pass of
ufshcd_get_dev_cmd_tag (ufshcd.c:3026-3046) computes tmp = ~lrb_in_use and
find_last_bit(&tmp, nutrs), i.e. the highest index below nutrs whose
lrb_in_use bit is clear, or nutrs if there is none. -/
def find_last_free (nutrs lrb_in_use : Nat) : Nat :=
  (List.range nutrs).foldl
    (fun acc i => if lrb_in_use.testBit i = false then i else acc) nutrs

/-- ufshcd_get_dev_cmd_tag (ufshcd.c:3026-3046), single-threaded view: pick
the highest free tag and claim it with test_and_set_bit_lock; fail (return
none) when no tag below nutrs is free.  Returns the tag together with the
updated bitmap. -/
def ufshcd_get_dev_cmd_tag (nutrs lrb_in_use : Nat) : Option (Nat × Nat) :=
  if find_last_free nutrs lrb_in_use ≥ nutrs then none
  else some (find_last_free nutrs lrb_in_use,
             setBit lrb_in_use (find_last_free nutrs lrb_in_use))

/-- The tag handling of ufshcd_queuecommand (ufshcd.c:2750-2773): the tag
is cmd->request->tag, assigned by the block layer, validated with
ufshcd_valid_tag (an invalid tag is a BUG(); modelled as none), and
claimed with test_and_set_bit_lock; if the bit is already set (a
device-management command owns it) the command is requeued (none).  No
free-tag search is performed on this path. -/
def ufshcd_queuecommand_claim (nutrs lrb_in_use reqTag : Nat) :
    Option (Nat × Nat) :=
  if reqTag ≥ nutrs then none
  else if lrb_in_use.testBit reqTag then none
  else some (reqTag, setBit lrb_in_use reqTag)

/-- The lowest free tag of the bitmap (what the specification asserts the
data-command path uses), or nutrs when no tag is free. -/
def find_first_free (nutrs lrb_in_use : Nat) : Nat :=
  (List.range nutrs).foldr
    (fun i acc => if lrb_in_use.testBit i = false then i else acc) nutrs

/-! ## Submission-path dispatch and ordering -/

/-- QueueCommand disposition: issued to the hardware, rejected with the
retryable SCSI_MLQUEUE_HOST_BUSY, or completed immediately with an error
host byte (set_host_byte + scsi_done). -/
inductive QcDisposition
  | issued
  | hostBusy
  | completedErr (hb : HostByte)
deriving DecidableEq, Repr

/-- The run-state switch of ufshcd_queuecommand (ufshcd.c:2831-2865),
taken under the host lock just before ufshcd_send_command: OPERATIONAL and
EH_SCHEDULED_NON_FATAL issue the command; EH_SCHEDULED_FATAL fails the
command with DID_BAD_TARGET if it came from PM ops, otherwise falls
through to RESET which returns SCSI_MLQUEUE_HOST_BUSY; ERROR completes the
command with DID_ERROR. -/
def ufshcd_queuecommand_dispatch (run : RunState) (pm_op : Bool) : QcDisposition :=
  match run with
  | .OPERATIONAL => .issued
  | .EH_SCHEDULED_NON_FATAL => .issued
  | .EH_SCHEDULED_FATAL =>
    if pm_op then .completedErr .DID_BAD_TARGET else .hostBusy
  | .RESET => .hostBusy
  | .ERROR => .completedErr .DID_ERROR

/-- The externally visible actions of the transfer-ring submission path,
in program order. -/
inductive SubmitAct
  | writeDescriptor   -- ufshcd_comp_scsi_upiu: request UPIU / descriptor header
  | buildSgTable      -- ufshcd_map_sg: scatter-gather table
  | memBarrier        -- wmb()
  | markOutstanding   -- __set_bit(task_tag, &hba->outstanding_reqs)
  | doorbellWrite     -- ufshcd_writel(..., REG_UTP_TRANSFER_REQ_DOOR_BELL)
deriving DecidableEq, Repr

/-- ufshcd_send_command (ufshcd.c:2178-2191): set the outstanding bit,
write the doorbell register, then wmb() ("Make sure that doorbell is
committed immediately"). -/
def ufshcd_send_command_trace : List SubmitAct :=
  [.markOutstanding, .doorbellWrite, .memBarrier]

/-- The successful submission path of ufshcd_queuecommand
(ufshcd.c:2803-2866): compose the UPIU/descriptor, build the
scatter-gather table, wmb() ("Make sure descriptors are ready before
ringing the doorbell"), then under the host lock ufshcd_send_command. -/
def ufshcd_queuecommand_submit_trace : List SubmitAct :=
  [.writeDescriptor, .buildSgTable, .memBarrier] ++ ufshcd_send_command_trace

/-- `actBetween tr a b c`: some occurrence of `b` lies strictly between an
occurrence of `a` and a later occurrence of `c` in the trace. -/
def actBetween (tr : List SubmitAct) (a b c : SubmitAct) : Prop :=
  ∃ i j k : Fin tr.length, i < j ∧ j < k ∧
    tr.get i = a ∧ tr.get j = b ∧ tr.get k = c

instance (tr : List SubmitAct) (a b c : SubmitAct) :
    Decidable (actBetween tr a b c) := by
  unfold actBetween; infer_instance

/-! ## The clock-gating transition system

Each constructor is one host-lock critical section (or one atomic bitmap
operation) of ufshcd.c.  Guards of the form 1 ≤ active_reqs encode that
the acting thread performed a successful ufshcd_hold that it has not yet
released: the submission paths (ufshcd_queuecommand via ufshcd_hold,
__ufshcd_issue_tm_cmd and ufshcd_send_uic_cmd / the ufshcd_uic_pwr_ctrl
callers via ufshcd_hold(hba, false)) all take a gating reference before
touching the outstanding state, so active_reqs is nonzero at those
sections.  The ufshcd_gate_work thread is tracked by the ghost gate_pc
field; its own hibern8-enter UIC command (issued while holding no gating
reference) is the gate_hib_start / gate_hib_ok / gate_hib_fail steps. -/
inductive Step : Hba → Hba → Prop
  /-- test_and_set_bit_lock(tag, &hba->lrb_in_use), successful case
  (ufshcd_queuecommand:2764 or ufshcd_get_dev_cmd_tag:3040). -/
  | claim_tag (h : Hba) (i : Nat) (hfree : h.lrb_in_use.testBit i = false) :
      Step h { h with lrb_in_use := setBit h.lrb_in_use i }
  /-- The claimed slot is filled in by its owner (ufshcd_queuecommand
  lrbp setup, 2784-2803).  A non-NULL cmd is bound only at 2787, after the
  successful ufshcd_hold at 2775, so a write that binds a command happens
  with a gating reference held (every other cmd write in the file stores
  NULL). -/
  | set_lrb (h : Hba) (i : Nat) (l : Lrb) (hheld : h.lrb_in_use.testBit i = true)
      (hhold : l.cmd = true → 1 ≤ h.active_reqs) :
      Step h { h with lrb := fun j => if j = i then l else h.lrb j }
  /-- ufshcd_send_command under the host lock (2865, via 2178-2191): set
  the outstanding bit and ring the doorbell.  The submitter claimed the
  tag and holds a gating reference, and the run state was checked in the
  same locked section (2831-2835). -/
  | send_command (h : Hba) (i : Nat)
      (hheld : h.lrb_in_use.testBit i = true)
      (hhold : 1 ≤ h.active_reqs)
      (hrun : h.ufshcd_state = .OPERATIONAL ∨
              h.ufshcd_state = .EH_SCHEDULED_NON_FATAL) :
      Step h { h with outstanding_reqs := setBit h.outstanding_reqs i,
                      tr_doorbell := setBit h.tr_doorbell i }
  /-- The device completes a command: the hardware clears its doorbell bit. -/
  | hw_complete (h : Hba) (i : Nat) :
      Step h { h with tr_doorbell := clearBit h.tr_doorbell i }
  /-- The interrupt path runs ufshcd_transfer_req_compl under the host
  lock (ufshcd_sl_intr / ufshcd_intr). -/
  | irq_compl (h : Hba) :
      Step h (ufshcd_transfer_req_compl h).1
  /-- ufshcd_hold, CLKS_ON case without a hibern8 exit needed (1806-1829):
  the entry increment persists. -/
  | hold_clks_on (h : Hba) (hst : h.clk_gating_state = .CLKS_ON) :
      Step h { h with active_reqs := h.active_reqs + 1 }
  /-- ufshcd_hold, REQ_CLKS_OFF case, cancel_delayed_work succeeded
  (1830-1836): back to CLKS_ON. -/
  | hold_cancel (h : Hba) (hst : h.clk_gating_state = .REQ_CLKS_OFF)
      (hp : h.gate_work_pending = true) :
      Step h { h with clk_gating_state := .CLKS_ON, gate_work_pending := false,
                      active_reqs := h.active_reqs + 1 }
  /-- ufshcd_hold (synchronous), CLKS_OFF case or REQ_CLKS_OFF with the
  cancel failed (1843-1849): request ungating and keep the increment while
  waiting for the ungate work. -/
  | hold_queue_ungate (h : Hba)
      (hst : h.clk_gating_state = .CLKS_OFF ∨
             (h.clk_gating_state = .REQ_CLKS_OFF ∧ h.gate_work_pending = false)) :
      Step h { h with clk_gating_state := .REQ_CLKS_ON,
                      active_reqs := h.active_reqs + 1 }
  /-- ufshcd_hold (synchronous), REQ_CLKS_ON case (1855-1866): keep the
  increment and wait for the ungate work. -/
  | hold_wait (h : Hba) (hst : h.clk_gating_state = .REQ_CLKS_ON) :
      Step h { h with active_reqs := h.active_reqs + 1 }
  /-- ufshcd_hold with async = true returning -EAGAIN from the
  CLKS_OFF / failed-cancel / REQ_CLKS_ON paths (1856-1859): the increment
  is undone in the same section, but the state still advances to
  REQ_CLKS_ON with the ungate work queued. -/
  | hold_async_fail (h : Hba)
      (hst : h.clk_gating_state = .CLKS_OFF ∨ h.clk_gating_state = .REQ_CLKS_ON ∨
             (h.clk_gating_state = .REQ_CLKS_OFF ∧ h.gate_work_pending = false)) :
      Step h { h with clk_gating_state := .REQ_CLKS_ON }
  /-- ufshcd_ungate_work: __ufshcd_setup_clocks(hba, true) records
  CLKS_ON under the host lock (8863-8868). -/
  | ungate_done (h : Hba) (hst : h.clk_gating_state = .REQ_CLKS_ON) :
      Step h { h with clk_gating_state := .CLKS_ON }
  /-- __ufshcd_release (1963-1981), matching an earlier successful hold. -/
  | release (h : Hba) (hhold : 1 ≤ h.active_reqs) :
      Step h (ufshcd_release_locked h)
  /-- The delayed gate work fires and runs its first locked section
  (ufshcd_gate_work:1885-1911). -/
  | gate_run (h : Hba) (hp : h.gate_work_pending = true) (hpc : h.gate_pc = .idle) :
      Step h (ufshcd_gate_work_check h)
  /-- ufshcd_gate_work issues its own hibern8-enter UIC operation after
  dropping the lock (1916-1917 via ufshcd_uic_pwr_ctrl, which sets
  hba->uic_async_done and hba->active_uic_cmd). -/
  | gate_hib_start (h : Hba) (hpc : h.gate_pc = .checked) :
      Step h { h with active_uic_cmd := true, uic_async_done := true,
                      gate_pc := .hib }
  /-- Hibern8 during gating is not enabled: proceed directly to the clock
  cut (1916 condition false). -/
  | gate_skip_hib (h : Hba) (hpc : h.gate_pc = .checked) :
      Step h { h with gate_pc := .ready }
  /-- The hibern8-enter operation finishes: ufshcd_uic_pwr_ctrl clears
  active_uic_cmd and uic_async_done under the lock before returning
  (4257-4259); the gate work then cuts clocks and proceeds to the commit. -/
  | gate_hib_ok (h : Hba) (hpc : h.gate_pc = .hib) :
      Step h { h with active_uic_cmd := false, uic_async_done := false,
                      gate_pc := .ready }
  /-- hibern8 enter failed: gate work records CLKS_ON and aborts
  (1918-1925). -/
  | gate_hib_fail (h : Hba) (hpc : h.gate_pc = .hib) :
      Step h { h with active_uic_cmd := false, uic_async_done := false,
                      gate_pc := .idle, clk_gating_state := .CLKS_ON }
  /-- The final locked section of ufshcd_gate_work (1950-1955): commit
  CLKS_OFF only if the state is still REQ_CLKS_OFF. -/
  | gate_commit (h : Hba) (hpc : h.gate_pc = .ready) :
      Step h { h with gate_pc := .idle,
                      clk_gating_state :=
                        if h.clk_gating_state = .REQ_CLKS_OFF then .CLKS_OFF
                        else h.clk_gating_state }
  /-- A UIC command is dispatched by a holder of a gating reference
  (ufshcd_send_uic_cmd:2397, ufshcd_uic_change_pwr_mode:4299,
  ufshcd_suspend:9356); power-mode commands also set uic_async_done
  (ufshcd_uic_pwr_ctrl:4207). -/
  | uic_begin (h : Hba) (hasync : Bool) (hhold : 1 ≤ h.active_reqs) :
      Step h { h with active_uic_cmd := true,
                      uic_async_done := hasync || h.uic_async_done }
  /-- The UIC operation finishes: active_uic_cmd (and uic_async_done) are
  cleared under the host lock (2349-2351, 4257-4259). -/
  | uic_finish (h : Hba) :
      Step h { h with active_uic_cmd := false, uic_async_done := false }
  /-- __ufshcd_issue_tm_cmd sets the outstanding-task bit under the host
  lock (6669) after ufshcd_hold (6658). -/
  | tm_submit (h : Hba) (i : Nat) (hhold : 1 ≤ h.active_reqs) :
      Step h { h with outstanding_tasks := setBit h.outstanding_tasks i }
  /-- __ufshcd_issue_tm_cmd clears the outstanding-task bit under the host
  lock when done (6703-6705). -/
  | tm_clear (h : Hba) (i : Nat) :
      Step h { h with outstanding_tasks := clearBit h.outstanding_tasks i }
  /-- ufshcd_outstanding_req_clear (ufshcd_wait_for_dev_cmd:3009): after a
  device-management command timeout the outstanding bit is dropped
  unconditionally — even when ufshcd_clear_cmd failed and the hardware
  doorbell bit is still set. -/
  | outstanding_clear (h : Hba) (i : Nat) :
      Step h { h with outstanding_reqs := clearBit h.outstanding_reqs i }
  /-- clear_bit_unlock on lrb_in_use outside the completion pass
  (queuecommand error paths 2778-2825, ufshcd_put_dev_cmd_tag:3050): the
  slot has no command bound and its outstanding bit is clear. -/
  | release_tag (h : Hba) (i : Nat) (hcmd : (h.lrb i).cmd = false)
      (hout : h.outstanding_reqs.testBit i = false) :
      Step h { h with lrb_in_use := clearBit h.lrb_in_use i }
  /-- The error/reset machine moves the run state (ufshcd_state writers). -/
  | set_run (h : Hba) (r : RunState) :
      Step h { h with ufshcd_state := r }
  /-- The suspend/resume paths toggle clk_gating.is_suspended. -/
  | set_suspend (h : Hba) (b : Bool) :
      Step h { h with is_suspended := b }

/-- A slot with no command bound. -/
def emptyLrb : Lrb := ⟨false, false, .SUCCESS, .unknown⟩

/-- The adapter right after initialization: empty slot table, no
outstanding work, clock gating initialized to CLKS_ON
(ufshcd_init_clk_gating:2086). -/
def initHba (n : Nat) : Hba where
  nutrs := n
  lrb := fun _ => emptyLrb
  lrb_in_use := 0
  outstanding_reqs := 0
  outstanding_tasks := 0
  tr_doorbell := 0
  ufshcd_state := .OPERATIONAL
  pm_op_in_progress := false
  clk_gating_state := .CLKS_ON
  active_reqs := 0
  is_suspended := false
  gate_work_pending := false
  gate_pc := .idle
  active_uic_cmd := false
  uic_async_done := false
  dev_cmd_complete := false
  doneCalls := []
  devCmdNotified := 0

/-- States reachable from initialization by the critical sections above. -/
inductive Reachable : Hba → Prop
  | start (n : Nat) : Reachable (initHba n)
  | step {a b : Hba} : Reachable a → Step a b → Reachable b

/-- Gating towards OFF has been requested or committed. -/
def OffRequested (h : Hba) : Prop :=
  h.clk_gating_state = .REQ_CLKS_OFF ∨ h.clk_gating_state = .CLKS_OFF

instance (h : Hba) : Decidable (OffRequested h) := by
  unfold OffRequested; infer_instance

/-- The inductive invariant of the gating machine.  The raw
outstanding_reqs mask appears in no clause: the unconditional
force-clear of ufshcd_wait_for_dev_cmd:3009 can desynchronize it from
the doorbell register, after which the reconciliation XOR folds a stuck
doorbell bit back into it (see the C2 counterexample); what the gating
checks actually protect are the claimed slots (lrb_in_use), the
outstanding tasks and the UIC/power-mode activity. -/
def Inv (h : Hba) : Prop :=
  (OffRequested h → h.active_reqs = 0) ∧
  (OffRequested h → h.outstanding_tasks = 0) ∧
  (OffRequested h → (h.active_uic_cmd = true ∨ h.uic_async_done = true) →
    h.gate_pc = .hib) ∧
  (h.clk_gating_state = .CLKS_OFF → h.gate_pc = .idle) ∧
  (∀ i, (h.lrb i).cmd = true → h.lrb_in_use.testBit i = true) ∧
  (OffRequested h → ∀ i, (h.lrb i).cmd = false)

/-! ### Lemmas about the completion pass -/

theorem release_locked_frame (h : Hba) :
    (ufshcd_release_locked h).nutrs = h.nutrs ∧
    (ufshcd_release_locked h).lrb = h.lrb ∧
    (ufshcd_release_locked h).lrb_in_use = h.lrb_in_use ∧
    (ufshcd_release_locked h).outstanding_reqs = h.outstanding_reqs ∧
    (ufshcd_release_locked h).outstanding_tasks = h.outstanding_tasks ∧
    (ufshcd_release_locked h).tr_doorbell = h.tr_doorbell ∧
    (ufshcd_release_locked h).active_uic_cmd = h.active_uic_cmd ∧
    (ufshcd_release_locked h).uic_async_done = h.uic_async_done ∧
    (ufshcd_release_locked h).gate_pc = h.gate_pc ∧
    (ufshcd_release_locked h).is_suspended = h.is_suspended ∧
    (ufshcd_release_locked h).doneCalls = h.doneCalls ∧
    (ufshcd_release_locked h).devCmdNotified = h.devCmdNotified ∧
    (ufshcd_release_locked h).dev_cmd_complete = h.dev_cmd_complete ∧
    (ufshcd_release_locked h).ufshcd_state = h.ufshcd_state := by
  unfold ufshcd_release_locked; split <;> simp

theorem release_locked_state (h : Hba) :
    (ufshcd_release_locked h).clk_gating_state = h.clk_gating_state ∨
    ((ufshcd_release_locked h).clk_gating_state = .REQ_CLKS_OFF ∧
     (ufshcd_release_locked h).active_reqs = 0 ∧ h.lrb_in_use = 0 ∧
     h.outstanding_tasks = 0 ∧ h.is_suspended = false ∧
     h.active_uic_cmd = false ∧ h.uic_async_done = false) := by
  unfold ufshcd_release_locked
  split
  · left; rfl
  · rename_i hcond
    push_neg at hcond
    right
    refine ⟨rfl, ?_, hcond.2.2.2.1, hcond.2.2.2.2.1, ?_, ?_, ?_⟩
    · simpa using hcond.1
    · simpa using hcond.2.1
    · simpa using hcond.2.2.2.2.2.1
    · simpa using hcond.2.2.2.2.2.2

/-- Loop invariant carried through the for_each_set_bit pass. -/
def Qinv (h : Hba) : Prop :=
  (∀ i, (h.lrb i).cmd = true → h.lrb_in_use.testBit i = true) ∧
  (OffRequested h → h.active_reqs = 0 ∧ h.lrb_in_use = 0 ∧
    h.outstanding_tasks = 0 ∧ h.active_uic_cmd = false ∧ h.uic_async_done = false)

/-- Frame facts of the completion pass relative to its pre state. -/
def Fframe (c : Nat) (h h2 : Hba) : Prop :=
  h2.nutrs = h.nutrs ∧
  h2.outstanding_reqs = h.outstanding_reqs ∧
  h2.tr_doorbell = h.tr_doorbell ∧
  h2.outstanding_tasks = h.outstanding_tasks ∧
  h2.active_uic_cmd = h.active_uic_cmd ∧
  h2.uic_async_done = h.uic_async_done ∧
  h2.gate_pc = h.gate_pc ∧
  h2.is_suspended = h.is_suspended ∧
  (∀ i, c.testBit i = false →
    h2.lrb_in_use.testBit i = h.lrb_in_use.testBit i) ∧
  (h2.clk_gating_state = h.clk_gating_state ∨
   h2.clk_gating_state = .REQ_CLKS_OFF)

theorem Fframe_rfl (c : Nat) (h : Hba) : Fframe c h h := by
  refine ⟨rfl, rfl, rfl, rfl, rfl, rfl, rfl, rfl, fun i _ => rfl, Or.inl rfl⟩

theorem Fframe_trans {c : Nat} {a b d : Hba}
    (h1 : Fframe c a b) (h2 : Fframe c b d) : Fframe c a d := by
  obtain ⟨e1, e2, e3, e4, e5, e6, e7, e8, e9, e10⟩ := h1
  obtain ⟨f1, f2, f3, f4, f5, f6, f7, f8, f9, f10⟩ := h2
  refine ⟨f1.trans e1, f2.trans e2, f3.trans e3, f4.trans e4, f5.trans e5,
    f6.trans e6, f7.trans e7, f8.trans e8,
    fun i hi => (f9 i hi).trans (e9 i hi), ?_⟩
  rcases f10 with f10 | f10
  · rw [f10]; exact e10
  · exact Or.inr f10

theorem compl_one_F (c : Nat) (h : Hba) (i : Nat) : Fframe c h (compl_one c h i) := by
  unfold compl_one
  split
  · rename_i hbit
    split
    · have hf := release_locked_frame
        { h with
          lrb := fun j => if j = i then { h.lrb i with cmd := false }
                          else h.lrb j,
          lrb_in_use := clearBit h.lrb_in_use i,
          doneCalls := h.doneCalls ++
            [(i, ufshcd_transfer_rsp_status (h.lrb i))] }
      have hs := release_locked_state
        { h with
          lrb := fun j => if j = i then { h.lrb i with cmd := false }
                          else h.lrb j,
          lrb_in_use := clearBit h.lrb_in_use i,
          doneCalls := h.doneCalls ++
            [(i, ufshcd_transfer_rsp_status (h.lrb i))] }
      refine ⟨hf.1, hf.2.2.2.1, hf.2.2.2.2.2.1, hf.2.2.2.2.1,
        hf.2.2.2.2.2.2.1, hf.2.2.2.2.2.2.2.1, hf.2.2.2.2.2.2.2.2.1,
        hf.2.2.2.2.2.2.2.2.2.1, ?_, ?_⟩
      · intro j hj
        have hne : i ≠ j := by
          intro hij; rw [hij] at hbit; rw [hbit] at hj; cases hj
        rw [hf.2.2.1]
        exact testBit_clearBit_ne h.lrb_in_use hne
      · rcases hs with hs | hs
        · exact Or.inl hs
        · exact Or.inr hs.1
    · split
      · split
        · exact ⟨rfl, rfl, rfl, rfl, rfl, rfl, rfl, rfl, fun _ _ => rfl,
            Or.inl rfl⟩
        · exact Fframe_rfl c h
      · exact Fframe_rfl c h
  · exact Fframe_rfl c h

theorem Qinv_release (g : Hba)
    (hg : ∀ j, (g.lrb j).cmd = true → g.lrb_in_use.testBit j = true)
    (hng : ¬ OffRequested g) : Qinv (ufshcd_release_locked g) := by
  have hf := release_locked_frame g
  have hs := release_locked_state g
  constructor
  · intro j hj
    rw [hf.2.2.1]
    rw [hf.2.1] at hj
    exact hg j hj
  · intro ho
    rcases hs with hseq | ⟨_, hact, hlrb0, htk, _, hu1, hu2⟩
    · exfalso
      apply hng
      unfold OffRequested at ho ⊢
      rwa [hseq] at ho
    · refine ⟨hact, ?_, ?_, ?_, ?_⟩
      · rw [hf.2.2.1]; exact hlrb0
      · rw [hf.2.2.2.2.1]; exact htk
      · rw [hf.2.2.2.2.2.2.1]; exact hu1
      · rw [hf.2.2.2.2.2.2.2.1]; exact hu2

theorem compl_one_Q (c : Nat) (h : Hba) (i : Nat) (hq : Qinv h) :
    Qinv (compl_one c h i) := by
  obtain ⟨he, hoff⟩ := hq
  unfold compl_one
  split
  · rename_i hbit
    split
    · rename_i hcmd
      have hnotOff : ¬ OffRequested h := by
        intro ho
        have h0 := (hoff ho).2.1
        have hbi := he i hcmd
        rw [h0] at hbi
        simp [Nat.zero_testBit] at hbi
      apply Qinv_release
      · intro j hj
        by_cases hij : j = i
        · subst hij
          simp at hj
        · have hc2 : (h.lrb j).cmd = true := by
            simpa [hij] using hj
          have := he j hc2
          show (clearBit h.lrb_in_use i).testBit j = true
          rw [testBit_clearBit_ne h.lrb_in_use (fun e => hij e.symm)]
          exact this
      · exact hnotOff
    · split
      · split
        · exact ⟨he, hoff⟩
        · exact ⟨he, hoff⟩
      · exact ⟨he, hoff⟩
  · exact ⟨he, hoff⟩

theorem foldl_compl_QF (c : Nat) (l : List Nat) :
    ∀ h : Hba, Qinv h →
      Qinv (l.foldl (compl_one c) h) ∧ Fframe c h (l.foldl (compl_one c) h) := by
  induction l with
  | nil => exact fun h hq => ⟨hq, Fframe_rfl c h⟩
  | cons a t ih =>
    intro h hq
    have h1 := compl_one_Q c h a hq
    obtain ⟨q2, f2⟩ := ih (compl_one c h a) h1
    rw [List.foldl_cons]
    exact ⟨q2, Fframe_trans (compl_one_F c h a) f2⟩

theorem not_offRequested_of_hold {a : Hba}
    (ha : OffRequested a → a.active_reqs = 0) (hhold : 1 ≤ a.active_reqs) :
    ¬ OffRequested a := by
  intro ho
  rw [ha ho] at hhold
  exact absurd hhold (by norm_num)

theorem compl_one_nocmd (c : Nat) (h : Hba) (i : Nat)
    (hnc : ∀ j, (h.lrb j).cmd = false) :
    (compl_one c h i).lrb = h.lrb ∧
    (compl_one c h i).lrb_in_use = h.lrb_in_use ∧
    (compl_one c h i).outstanding_tasks = h.outstanding_tasks ∧
    (compl_one c h i).active_uic_cmd = h.active_uic_cmd ∧
    (compl_one c h i).uic_async_done = h.uic_async_done ∧
    (compl_one c h i).gate_pc = h.gate_pc ∧
    (compl_one c h i).active_reqs = h.active_reqs ∧
    (compl_one c h i).clk_gating_state = h.clk_gating_state := by
  unfold compl_one
  split
  · split
    · rename_i hcmd
      rw [hnc i] at hcmd
      cases hcmd
    · split
      · split
        · exact ⟨rfl, rfl, rfl, rfl, rfl, rfl, rfl, rfl⟩
        · exact ⟨rfl, rfl, rfl, rfl, rfl, rfl, rfl, rfl⟩
      · exact ⟨rfl, rfl, rfl, rfl, rfl, rfl, rfl, rfl⟩
  · exact ⟨rfl, rfl, rfl, rfl, rfl, rfl, rfl, rfl⟩

theorem foldl_compl_nocmd (c : Nat) :
    ∀ (l : List Nat) (h : Hba), (∀ j, (h.lrb j).cmd = false) →
      (l.foldl (compl_one c) h).lrb = h.lrb ∧
      (l.foldl (compl_one c) h).lrb_in_use = h.lrb_in_use ∧
      (l.foldl (compl_one c) h).outstanding_tasks = h.outstanding_tasks ∧
      (l.foldl (compl_one c) h).active_uic_cmd = h.active_uic_cmd ∧
      (l.foldl (compl_one c) h).uic_async_done = h.uic_async_done ∧
      (l.foldl (compl_one c) h).gate_pc = h.gate_pc ∧
      (l.foldl (compl_one c) h).active_reqs = h.active_reqs ∧
      (l.foldl (compl_one c) h).clk_gating_state = h.clk_gating_state := by
  intro l
  induction l with
  | nil => exact fun h _ => ⟨rfl, rfl, rfl, rfl, rfl, rfl, rfl, rfl⟩
  | cons a t ih =>
    intro h hnc
    rw [List.foldl_cons]
    have h1 := compl_one_nocmd c h a hnc
    have hnc2 : ∀ j, ((compl_one c h a).lrb j).cmd = false := by
      intro j
      rw [h1.1]
      exact hnc j
    obtain ⟨e1, e2, e3, e4, e5, e6, e7, e8⟩ := ih (compl_one c h a) hnc2
    exact ⟨e1.trans h1.1, e2.trans h1.2.1, e3.trans h1.2.2.1,
      e4.trans h1.2.2.2.1, e5.trans h1.2.2.2.2.1, e6.trans h1.2.2.2.2.2.1,
      e7.trans h1.2.2.2.2.2.2.1, e8.trans h1.2.2.2.2.2.2.2⟩

theorem Inv_irq (h : Hba) (hI : Inv h) : Inv (ufshcd_transfer_req_compl h).1 := by
  obtain ⟨ha, hbt, hpc3, hoffidle, he, hfc⟩ := hI
  by_cases hc0 : h.tr_doorbell ^^^ h.outstanding_reqs = 0
  · have hres : ufshcd_transfer_req_compl h = (h, .notHandled) := by
      unfold ufshcd_transfer_req_compl
      simp [hc0]
    rw [hres]
    exact ⟨ha, hbt, hpc3, hoffidle, he, hfc⟩
  · have hres : (ufshcd_transfer_req_compl h).1 =
        { (List.range h.nutrs).foldl
            (compl_one (h.tr_doorbell ^^^ h.outstanding_reqs)) h with
          outstanding_reqs :=
            ((List.range h.nutrs).foldl
              (compl_one (h.tr_doorbell ^^^ h.outstanding_reqs)) h).outstanding_reqs
              ^^^ (h.tr_doorbell ^^^ h.outstanding_reqs) } := by
      unfold ufshcd_transfer_req_compl __ufshcd_transfer_req_compl
      simp [hc0]
    rw [hres]
    by_cases hOff : OffRequested h
    · -- no slot holds a command, so the pass only signals dev_cmd waiters
      have hnc : ∀ j, (h.lrb j).cmd = false := hfc hOff
      obtain ⟨e1, e2, e3, e4, e5, e6, e7, e8⟩ :=
        foldl_compl_nocmd (h.tr_doorbell ^^^ h.outstanding_reqs)
          (List.range h.nutrs) h hnc
      set h2 := (List.range h.nutrs).foldl
        (compl_one (h.tr_doorbell ^^^ h.outstanding_reqs)) h with hh2
      refine ⟨?_, ?_, ?_, ?_, ?_, ?_⟩
      · intro ho
        have ho2 : h2.clk_gating_state = ClkState.REQ_CLKS_OFF ∨
            h2.clk_gating_state = ClkState.CLKS_OFF := ho
        rw [e8] at ho2
        show h2.active_reqs = 0
        rw [e7]
        exact ha ho2
      · intro ho
        have ho2 : h2.clk_gating_state = ClkState.REQ_CLKS_OFF ∨
            h2.clk_gating_state = ClkState.CLKS_OFF := ho
        rw [e8] at ho2
        show h2.outstanding_tasks = 0
        rw [e3]
        exact hbt ho2
      · intro ho hu
        have ho2 : h2.clk_gating_state = ClkState.REQ_CLKS_OFF ∨
            h2.clk_gating_state = ClkState.CLKS_OFF := ho
        rw [e8] at ho2
        show h2.gate_pc = GatePC.hib
        rw [e6]
        apply hpc3 ho2
        rcases hu with hu | hu
        · left
          have hu2 : h2.active_uic_cmd = true := hu
          rwa [e4] at hu2
        · right
          have hu2 : h2.uic_async_done = true := hu
          rwa [e5] at hu2
      · intro hclk
        have hclk2 : h2.clk_gating_state = ClkState.CLKS_OFF := hclk
        rw [e8] at hclk2
        show h2.gate_pc = GatePC.idle
        rw [e6]
        exact hoffidle hclk2
      · intro i hi
        have hi2 : (h2.lrb i).cmd = true := hi
        rw [e1] at hi2
        show h2.lrb_in_use.testBit i = true
        rw [e2]
        exact he i hi2
      · intro _ i
        show (h2.lrb i).cmd = false
        rw [e1]
        exact hnc i
    · have hq : Qinv h := ⟨he, fun ho => absurd ho hOff⟩
      obtain ⟨hQ2, hF⟩ := foldl_compl_QF
        (h.tr_doorbell ^^^ h.outstanding_reqs) (List.range h.nutrs) h hq
      obtain ⟨hfn, hfo, hft, hftk, hfu1, hfu2, hfpc, hfsusp, hflrb, hfst⟩ := hF
      set h2 := (List.range h.nutrs).foldl
        (compl_one (h.tr_doorbell ^^^ h.outstanding_reqs)) h with hh2
      refine ⟨?_, ?_, ?_, ?_, ?_, ?_⟩
      · intro ho
        exact (hQ2.2 ho).1
      · intro ho
        exact (hQ2.2 ho).2.2.1
      · intro ho hu
        obtain ⟨_, _, _, hu1, hu2⟩ := hQ2.2 ho
        rcases hu with hu | hu
        · exact absurd (hu1 ▸ hu) (by simp)
        · exact absurd (hu2 ▸ hu) (by simp)
      · intro hclk
        rcases hfst with hfst | hfst
        · exfalso
          apply hOff
          right
          rw [← hfst]
          exact hclk
        · rw [hfst] at hclk
          cases hclk
      · exact hQ2.1
      · intro ho i
        obtain ⟨_, hlrb0, _, _, _⟩ := hQ2.2 ho
        cases hx : (h2.lrb i).cmd
        · rfl
        · exfalso
          have hbit := hQ2.1 i hx
          rw [hlrb0] at hbit
          simp [Nat.zero_testBit] at hbit

theorem Inv_step {h b : Hba} (hs : Step h b) : Inv h → Inv b := by
  cases hs with
  | claim_tag i hfree =>
    intro ⟨ha, hbt, hpc3, hoffidle, he, hfc⟩
    refine ⟨ha, hbt, hpc3, hoffidle, ?_, hfc⟩
    intro j hj
    show (setBit h.lrb_in_use i).testBit j = true
    have hj2 : (h.lrb j).cmd = true := hj
    rw [testBit_setBit, he j hj2]
    rfl
  | set_lrb i l hheld hhold =>
    intro ⟨ha, hbt, hpc3, hoffidle, he, hfc⟩
    refine ⟨ha, hbt, hpc3, hoffidle, ?_, ?_⟩
    · intro j hj
      have hj2 : (if j = i then l else h.lrb j).cmd = true := hj
      show h.lrb_in_use.testBit j = true
      by_cases hij : j = i
      · subst hij
        exact hheld
      · apply he j
        rw [if_neg hij] at hj2
        exact hj2
    · intro ho j
      have ho2 : OffRequested h := ho
      show (if j = i then l else h.lrb j).cmd = false
      by_cases hij : j = i
      · rw [if_pos hij]
        cases hx : l.cmd
        · rfl
        · exfalso
          have hact := hhold hx
          rw [ha ho2] at hact
          exact absurd hact (by norm_num)
      · rw [if_neg hij]
        exact hfc ho2 j
  | send_command i hheld hhold hrun =>
    intro ⟨ha, hbt, hpc3, hoffidle, he, hfc⟩
    exact ⟨ha, hbt, hpc3, hoffidle, he, hfc⟩
  | hw_complete i =>
    intro ⟨ha, hbt, hpc3, hoffidle, he, hfc⟩
    exact ⟨ha, hbt, hpc3, hoffidle, he, hfc⟩
  | irq_compl =>
    intro hI
    exact Inv_irq h hI
  | hold_clks_on hst =>
    intro ⟨ha, hbt, hpc3, hoffidle, he, hfc⟩
    have hno : ¬ OffRequested h := by
      intro ho
      rcases ho with ho | ho <;> rw [hst] at ho <;> cases ho
    refine ⟨fun ho => absurd ho hno, fun ho => absurd ho hno,
      fun ho => absurd ho hno, ?_, he, fun ho => absurd ho hno⟩
    intro hclk
    exact absurd (Or.inr hclk) hno
  | hold_cancel hst hp =>
    intro ⟨ha, hbt, hpc3, hoffidle, he, hfc⟩
    refine ⟨?_, ?_, ?_, ?_, he, ?_⟩ <;>
      first
      | (intro ho; rcases ho with ho | ho <;> cases ho)
      | (intro hclk; cases hclk)
  | hold_queue_ungate hst =>
    intro ⟨ha, hbt, hpc3, hoffidle, he, hfc⟩
    refine ⟨?_, ?_, ?_, ?_, he, ?_⟩ <;>
      first
      | (intro ho; rcases ho with ho | ho <;> cases ho)
      | (intro hclk; cases hclk)
  | hold_wait hst =>
    intro ⟨ha, hbt, hpc3, hoffidle, he, hfc⟩
    have hno : ¬ OffRequested h := by
      intro ho
      rcases ho with ho | ho <;> rw [hst] at ho <;> cases ho
    refine ⟨fun ho => absurd ho hno, fun ho => absurd ho hno,
      fun ho => absurd ho hno, ?_, he, fun ho => absurd ho hno⟩
    intro hclk
    exact absurd (Or.inr hclk) hno
  | hold_async_fail hst =>
    intro ⟨ha, hbt, hpc3, hoffidle, he, hfc⟩
    refine ⟨?_, ?_, ?_, ?_, he, ?_⟩ <;>
      first
      | (intro ho; rcases ho with ho | ho <;> cases ho)
      | (intro hclk; cases hclk)
  | ungate_done hst =>
    intro ⟨ha, hbt, hpc3, hoffidle, he, hfc⟩
    refine ⟨?_, ?_, ?_, ?_, he, ?_⟩ <;>
      first
      | (intro ho; rcases ho with ho | ho <;> cases ho)
      | (intro hclk; cases hclk)
  | release hhold =>
    intro ⟨ha, hbt, hpc3, hoffidle, he, hfc⟩
    have hno := not_offRequested_of_hold ha hhold
    have hf := release_locked_frame h
    have hst := release_locked_state h
    rcases hst with hseq | ⟨hreq, hact, hlrb0, htk0, _, hu1, hu2⟩
    · have hnob : ¬ OffRequested (ufshcd_release_locked h) := by
        intro ho
        apply hno
        unfold OffRequested at ho ⊢
        rwa [hseq] at ho
      refine ⟨fun ho => absurd ho hnob, fun ho => absurd ho hnob,
        fun ho => absurd ho hnob, ?_, ?_, fun ho => absurd ho hnob⟩
      · intro hclk
        exact absurd (Or.inr hclk) hnob
      · intro j hj
        rw [hf.2.2.1]
        rw [hf.2.1] at hj
        exact he j hj
    · refine ⟨fun _ => hact, ?_, ?_, ?_, ?_, ?_⟩
      · intro _
        rw [hf.2.2.2.2.1]
        exact htk0
      · intro _ hu
        rcases hu with hu | hu
        · rw [hf.2.2.2.2.2.2.1, hu1] at hu
          cases hu
        · rw [hf.2.2.2.2.2.2.2.1, hu2] at hu
          cases hu
      · intro hclk
        rw [hreq] at hclk
        cases hclk
      · intro j hj
        rw [hf.2.2.1]
        rw [hf.2.1] at hj
        exact he j hj
      · intro _ j
        show ((ufshcd_release_locked h).lrb j).cmd = false
        rw [hf.2.1]
        cases hx : (h.lrb j).cmd
        · rfl
        · exfalso
          have hbit := he j hx
          rw [hlrb0] at hbit
          simp [Nat.zero_testBit] at hbit
  | gate_run hp hpc =>
    intro ⟨ha, hbt, hpc3, hoffidle, he, hfc⟩
    unfold ufshcd_gate_work_check
    split
    · exact ⟨ha, hbt, hpc3, hoffidle, he, hfc⟩
    split
    · refine ⟨?_, ?_, ?_, ?_, he, ?_⟩ <;>
        first
        | (intro ho; rcases ho with ho | ho <;> cases ho)
        | (intro hclk; cases hclk)
    split
    · exact ⟨ha, hbt, hpc3, hoffidle, he, hfc⟩
    · rename_i hnotoff hreqoff hquiet
      push_neg at hreqoff hquiet
      have hreq : h.clk_gating_state = .REQ_CLKS_OFF := hreqoff.2
      have hact : h.active_reqs = 0 := hquiet.1
      have hlrb0 : h.lrb_in_use = 0 := hquiet.2.2.1
      have htk0 : h.outstanding_tasks = 0 := hquiet.2.2.2.1
      have hu1 : h.active_uic_cmd = false := by
        simpa using hquiet.2.2.2.2.1
      have hu2 : h.uic_async_done = false := by
        simpa using hquiet.2.2.2.2.2
      refine ⟨fun _ => hact, fun _ => htk0, ?_, ?_, he, ?_⟩
      · intro _ hu
        rcases hu with hu | hu
        · have hu3 : h.active_uic_cmd = true := hu
          rw [hu1] at hu3
          cases hu3
        · have hu3 : h.uic_async_done = true := hu
          rw [hu2] at hu3
          cases hu3
      · intro hclk
        have hclk2 : h.clk_gating_state = ClkState.CLKS_OFF := hclk
        rw [hreq] at hclk2
        cases hclk2
      · intro _ j
        show (h.lrb j).cmd = false
        cases hx : (h.lrb j).cmd
        · rfl
        · exfalso
          have hbit := he j hx
          rw [hlrb0] at hbit
          simp [Nat.zero_testBit] at hbit
  | gate_hib_start hpc =>
    intro ⟨ha, hbt, hpc3, hoffidle, he, hfc⟩
    refine ⟨ha, hbt, fun _ _ => rfl, ?_, he, ?_⟩
    · intro hclk
      have hidle := hoffidle hclk
      rw [hpc] at hidle
      cases hidle
    · intro ho j
      have ho2 : OffRequested h := ho
      exact hfc ho2 j
  | gate_skip_hib hpc =>
    intro ⟨ha, hbt, hpc3, hoffidle, he, hfc⟩
    refine ⟨ha, hbt, ?_, ?_, he, ?_⟩
    · intro ho hu
      have hhib := hpc3 ho hu
      rw [hpc] at hhib
      cases hhib
    · intro hclk
      have hidle := hoffidle hclk
      rw [hpc] at hidle
      cases hidle
    · intro ho j
      have ho2 : OffRequested h := ho
      exact hfc ho2 j
  | gate_hib_ok hpc =>
    intro ⟨ha, hbt, hpc3, hoffidle, he, hfc⟩
    refine ⟨ha, hbt, ?_, ?_, he, ?_⟩
    · intro _ hu
      rcases hu with hu | hu <;> cases hu
    · intro hclk
      have hidle := hoffidle hclk
      rw [hpc] at hidle
      cases hidle
    · intro ho j
      have ho2 : OffRequested h := ho
      exact hfc ho2 j
  | gate_hib_fail hpc =>
    intro ⟨ha, hbt, hpc3, hoffidle, he, hfc⟩
    refine ⟨?_, ?_, ?_, ?_, he, ?_⟩ <;>
      first
      | (intro ho; rcases ho with ho | ho <;> cases ho)
      | (intro hclk; cases hclk)
  | gate_commit hpc =>
    intro ⟨ha, hbt, hpc3, hoffidle, he, hfc⟩
    by_cases hreq : h.clk_gating_state = ClkState.REQ_CLKS_OFF
    · have hoa : OffRequested h := Or.inl hreq
      refine ⟨fun _ => ha hoa, fun _ => hbt hoa, ?_, fun _ => rfl, he,
        fun _ j => hfc hoa j⟩
      intro _ hu
      have hhib := hpc3 hoa hu
      rw [hpc] at hhib
      cases hhib
    · have hstate : (if h.clk_gating_state = ClkState.REQ_CLKS_OFF
            then ClkState.CLKS_OFF else h.clk_gating_state)
          = h.clk_gating_state := if_neg hreq
      refine ⟨?_, ?_, ?_, ?_, he, ?_⟩
      · intro ho
        rcases ho with ho | ho
        · have ho2 : (if h.clk_gating_state = ClkState.REQ_CLKS_OFF
              then ClkState.CLKS_OFF else h.clk_gating_state)
                = ClkState.REQ_CLKS_OFF := ho
          rw [hstate] at ho2
          exact ha (Or.inl ho2)
        · have ho2 : (if h.clk_gating_state = ClkState.REQ_CLKS_OFF
              then ClkState.CLKS_OFF else h.clk_gating_state)
                = ClkState.CLKS_OFF := ho
          rw [hstate] at ho2
          exact ha (Or.inr ho2)
      · intro ho
        rcases ho with ho | ho
        · have ho2 : (if h.clk_gating_state = ClkState.REQ_CLKS_OFF
              then ClkState.CLKS_OFF else h.clk_gating_state)
                = ClkState.REQ_CLKS_OFF := ho
          rw [hstate] at ho2
          exact hbt (Or.inl ho2)
        · have ho2 : (if h.clk_gating_state = ClkState.REQ_CLKS_OFF
              then ClkState.CLKS_OFF else h.clk_gating_state)
                = ClkState.CLKS_OFF := ho
          rw [hstate] at ho2
          exact hbt (Or.inr ho2)
      · intro ho hu
        have hoa : OffRequested h := by
          rcases ho with ho | ho
          · have ho2 : (if h.clk_gating_state = ClkState.REQ_CLKS_OFF
                then ClkState.CLKS_OFF else h.clk_gating_state)
                  = ClkState.REQ_CLKS_OFF := ho
            rw [hstate] at ho2
            exact Or.inl ho2
          · have ho2 : (if h.clk_gating_state = ClkState.REQ_CLKS_OFF
                then ClkState.CLKS_OFF else h.clk_gating_state)
                  = ClkState.CLKS_OFF := ho
            rw [hstate] at ho2
            exact Or.inr ho2
        have hhib := hpc3 hoa hu
        rw [hpc] at hhib
        cases hhib
      · intro _
        rfl
      · intro ho j
        have hoa : OffRequested h := by
          rcases ho with ho | ho
          · have ho2 : (if h.clk_gating_state = ClkState.REQ_CLKS_OFF
                then ClkState.CLKS_OFF else h.clk_gating_state)
                  = ClkState.REQ_CLKS_OFF := ho
            rw [hstate] at ho2
            exact Or.inl ho2
          · have ho2 : (if h.clk_gating_state = ClkState.REQ_CLKS_OFF
                then ClkState.CLKS_OFF else h.clk_gating_state)
                  = ClkState.CLKS_OFF := ho
            rw [hstate] at ho2
            exact Or.inr ho2
        exact hfc hoa j
  | uic_begin hasync hhold =>
    intro ⟨ha, hbt, hpc3, hoffidle, he, hfc⟩
    have hno := not_offRequested_of_hold ha hhold
    refine ⟨fun ho => absurd ho hno, fun ho => absurd ho hno,
      fun ho => absurd ho hno, ?_, he, fun ho => absurd ho hno⟩
    intro hclk
    exact absurd (Or.inr hclk) hno
  | uic_finish =>
    intro ⟨ha, hbt, hpc3, hoffidle, he, hfc⟩
    refine ⟨ha, hbt, ?_, hoffidle, he, ?_⟩
    · intro _ hu
      rcases hu with hu | hu <;> cases hu
    · intro ho j
      have ho2 : OffRequested h := ho
      exact hfc ho2 j
  | tm_submit i hhold =>
    intro ⟨ha, hbt, hpc3, hoffidle, he, hfc⟩
    have hno := not_offRequested_of_hold ha hhold
    refine ⟨fun ho => absurd ho hno, fun ho => absurd ho hno,
      fun ho => absurd ho hno, ?_, he, fun ho => absurd ho hno⟩
    intro hclk
    exact absurd (Or.inr hclk) hno
  | tm_clear i =>
    intro ⟨ha, hbt, hpc3, hoffidle, he, hfc⟩
    refine ⟨ha, ?_, hpc3, hoffidle, he, hfc⟩
    intro ho
    show clearBit h.outstanding_tasks i = 0
    have ho2 : OffRequested h := ho
    rw [hbt ho2]
    simp [clearBit, Nat.zero_testBit]
  | outstanding_clear i =>
    intro ⟨ha, hbt, hpc3, hoffidle, he, hfc⟩
    exact ⟨ha, hbt, hpc3, hoffidle, he, hfc⟩
  | release_tag i hcmd hout =>
    intro ⟨ha, hbt, hpc3, hoffidle, he, hfc⟩
    refine ⟨ha, hbt, hpc3, hoffidle, ?_, hfc⟩
    intro j hj
    show (clearBit h.lrb_in_use i).testBit j = true
    have hj2 : (h.lrb j).cmd = true := hj
    by_cases hij : i = j
    · subst hij
      rw [hj2] at hcmd
      cases hcmd
    · rw [testBit_clearBit_ne _ hij]
      exact he j hj2
  | set_run r =>
    intro ⟨ha, hbt, hpc3, hoffidle, he, hfc⟩
    exact ⟨ha, hbt, hpc3, hoffidle, he, hfc⟩
  | set_suspend bb =>
    intro ⟨ha, hbt, hpc3, hoffidle, he, hfc⟩
    exact ⟨ha, hbt, hpc3, hoffidle, he, hfc⟩

theorem Inv_init (n : Nat) : Inv (initHba n) := by
  refine ⟨fun _ => rfl, fun _ => rfl, ?_, fun _ => rfl, ?_, ?_⟩
  · intro _ hu
    rcases hu with hu | hu <;> cases hu
  · intro i hi
    simp [initHba, emptyLrb] at hi
  · intro _ i
    rfl

theorem Inv_reachable {h : Hba} (hr : Reachable h) : Inv h := by
  induction hr with
  | start n => exact Inv_init n
  | step _ hs ih => exact Inv_step hs ih

/-! ### Per-bit behaviour of the completion pass -/

theorem compl_one_mono (c : Nat) (h : Hba) (i : Nat) :
    (∀ x, x ∈ h.doneCalls → x ∈ (compl_one c h i).doneCalls) ∧
    (∀ j, (compl_one c h i).lrb_in_use.testBit j = true →
      h.lrb_in_use.testBit j = true) ∧
    (∀ j, ((compl_one c h i).lrb j).cmd = true → (h.lrb j).cmd = true) := by
  unfold compl_one
  split
  · split
    · have hf := release_locked_frame
        { h with
          lrb := fun j => if j = i then { h.lrb i with cmd := false }
                          else h.lrb j,
          lrb_in_use := clearBit h.lrb_in_use i,
          doneCalls := h.doneCalls ++
            [(i, ufshcd_transfer_rsp_status (h.lrb i))] }
      refine ⟨?_, ?_, ?_⟩
      · intro x hx
        rw [hf.2.2.2.2.2.2.2.2.2.2.1]
        exact List.mem_append_left _ hx
      · intro j hj
        rw [hf.2.2.1] at hj
        by_cases hij : i = j
        · subst hij
          have hj2 : (clearBit h.lrb_in_use i).testBit i = true := hj
          rw [testBit_clearBit_self] at hj2
          cases hj2
        · have hj2 : (clearBit h.lrb_in_use i).testBit j = true := hj
          rwa [testBit_clearBit_ne _ hij] at hj2
      · intro j hj
        rw [hf.2.1] at hj
        by_cases hij : j = i
        · subst hij
          simp at hj
        · simpa [hij] using hj
    · split
      · split
        · exact ⟨fun x hx => hx, fun j hj => hj, fun j hj => hj⟩
        · exact ⟨fun x hx => hx, fun j hj => hj, fun j hj => hj⟩
      · exact ⟨fun x hx => hx, fun j hj => hj, fun j hj => hj⟩
  · exact ⟨fun x hx => hx, fun j hj => hj, fun j hj => hj⟩

theorem compl_one_lrb_ne (c : Nat) (h : Hba) {i j : Nat} (hij : j ≠ i) :
    (compl_one c h i).lrb j = h.lrb j ∧
    (compl_one c h i).lrb_in_use.testBit j = h.lrb_in_use.testBit j := by
  unfold compl_one
  split
  · split
    · have hf := release_locked_frame
        { h with
          lrb := fun k => if k = i then { h.lrb i with cmd := false }
                          else h.lrb k,
          lrb_in_use := clearBit h.lrb_in_use i,
          doneCalls := h.doneCalls ++
            [(i, ufshcd_transfer_rsp_status (h.lrb i))] }
      constructor
      · rw [hf.2.1]
        simp [hij]
      · rw [hf.2.2.1]
        exact testBit_clearBit_ne _ (fun e => hij e.symm)
    · split
      · split
        · exact ⟨rfl, rfl⟩
        · exact ⟨rfl, rfl⟩
      · exact ⟨rfl, rfl⟩
  · exact ⟨rfl, rfl⟩

theorem compl_one_processed (c : Nat) (h : Hba) (i : Nat)
    (hbit : c.testBit i = true) (hcmd : (h.lrb i).cmd = true) :
    (i, ufshcd_transfer_rsp_status (h.lrb i)) ∈ (compl_one c h i).doneCalls ∧
    (compl_one c h i).lrb_in_use.testBit i = false ∧
    ((compl_one c h i).lrb i).cmd = false := by
  unfold compl_one
  rw [if_pos hbit, if_pos hcmd]
  have hf := release_locked_frame
    { h with
      lrb := fun k => if k = i then { h.lrb i with cmd := false }
                      else h.lrb k,
      lrb_in_use := clearBit h.lrb_in_use i,
      doneCalls := h.doneCalls ++
        [(i, ufshcd_transfer_rsp_status (h.lrb i))] }
  refine ⟨?_, ?_, ?_⟩
  · rw [hf.2.2.2.2.2.2.2.2.2.2.1]
    exact List.mem_append_right _ (List.mem_singleton_self _)
  · rw [hf.2.2.1]
    exact testBit_clearBit_self _ _
  · rw [hf.2.1]
    simp

theorem foldl_compl_preserve (c : Nat) (x : Nat × CmdResult) (i : Nat) :
    ∀ (l : List Nat) (h : Hba),
      x ∈ h.doneCalls → h.lrb_in_use.testBit i = false → (h.lrb i).cmd = false →
      x ∈ (l.foldl (compl_one c) h).doneCalls ∧
      (l.foldl (compl_one c) h).lrb_in_use.testBit i = false ∧
      ((l.foldl (compl_one c) h).lrb i).cmd = false := by
  intro l
  induction l with
  | nil => exact fun h hm hb hc => ⟨hm, hb, hc⟩
  | cons a t ih =>
    intro h hm hb hc
    rw [List.foldl_cons]
    have hmono := compl_one_mono c h a
    apply ih
    · exact hmono.1 x hm
    · cases hx : (compl_one c h a).lrb_in_use.testBit i
      · rfl
      · rw [hmono.2.1 i hx] at hb
        cases hb
    · cases hx : ((compl_one c h a).lrb i).cmd
      · rfl
      · rw [hmono.2.2 i hx] at hc
        cases hc

theorem foldl_compl_processed (c : Nat) (i : Nat) :
    ∀ (l : List Nat) (h : Hba), i ∈ l →
      c.testBit i = true → (h.lrb i).cmd = true →
      (i, ufshcd_transfer_rsp_status (h.lrb i)) ∈
        (l.foldl (compl_one c) h).doneCalls ∧
      (l.foldl (compl_one c) h).lrb_in_use.testBit i = false ∧
      ((l.foldl (compl_one c) h).lrb i).cmd = false := by
  intro l
  induction l with
  | nil => intro h hmem; cases hmem
  | cons a t ih =>
    intro h hmem hbit hcmd
    rw [List.foldl_cons]
    by_cases hai : a = i
    · subst hai
      obtain ⟨hm, hb, hc⟩ := compl_one_processed c h a hbit hcmd
      exact foldl_compl_preserve c _ a t (compl_one c h a) hm hb hc
    · have hmem2 : i ∈ t := by
        rcases List.mem_cons.mp hmem with hx | hx
        · exact absurd hx.symm hai
        · exact hx
      have hfr := compl_one_lrb_ne c h (fun e => hai e.symm)
      have hcmd2 : ((compl_one c h a).lrb i).cmd = true := by
        rw [hfr.1]
        exact hcmd
      have hres := ih (compl_one c h a) hmem2 hbit hcmd2
      rwa [hfr.1] at hres

theorem foldl_compl_out_db (c : Nat) :
    ∀ (l : List Nat) (h : Hba),
      (l.foldl (compl_one c) h).outstanding_reqs = h.outstanding_reqs ∧
      (l.foldl (compl_one c) h).tr_doorbell = h.tr_doorbell := by
  intro l
  induction l with
  | nil => exact fun h => ⟨rfl, rfl⟩
  | cons a t ih =>
    intro h
    rw [List.foldl_cons]
    have hf := compl_one_F c h a
    obtain ⟨h1, h2⟩ := ih (compl_one c h a)
    exact ⟨h1.trans hf.2.1, h2.trans hf.2.2.1⟩

/-! ## Claim theorems -/

/-- C1: whenever the transfer-ring completion reconciliation runs, it
computes the completed set as doorbell XOR outstanding, and for every bit
of that set that carries an in-flight command it maps the descriptor
status to a result classification (ufshcd_transfer_rsp_status), notifies
the original caller with that result, releases the tag (clears the
lrb_in_use bit), and clears the outstanding bit — all in the one pass, so
no command of the completed set is dropped without notification. -/
theorem transfer_reconcile_completes_every_bit (h : Hba) (i : Nat)
    (hi : i < h.nutrs)
    (hbit : (h.tr_doorbell ^^^ h.outstanding_reqs).testBit i = true)
    (hout : h.outstanding_reqs.testBit i = true)
    (hcmd : (h.lrb i).cmd = true) :
    (i, ufshcd_transfer_rsp_status (h.lrb i)) ∈
      (ufshcd_transfer_req_compl h).1.doneCalls ∧
    (ufshcd_transfer_req_compl h).1.lrb_in_use.testBit i = false ∧
    ((ufshcd_transfer_req_compl h).1.lrb i).cmd = false ∧
    (ufshcd_transfer_req_compl h).1.outstanding_reqs.testBit i = false ∧
    (ufshcd_transfer_req_compl h).2 = .handled := by
  have hc0 : h.tr_doorbell ^^^ h.outstanding_reqs ≠ 0 := by
    intro h0
    rw [h0] at hbit
    simp [Nat.zero_testBit] at hbit
  have hres1 : (ufshcd_transfer_req_compl h).1 =
      { (List.range h.nutrs).foldl
          (compl_one (h.tr_doorbell ^^^ h.outstanding_reqs)) h with
        outstanding_reqs :=
          ((List.range h.nutrs).foldl
            (compl_one (h.tr_doorbell ^^^ h.outstanding_reqs)) h).outstanding_reqs
            ^^^ (h.tr_doorbell ^^^ h.outstanding_reqs) } := by
    unfold ufshcd_transfer_req_compl __ufshcd_transfer_req_compl
    simp [hc0]
  have hres2 : (ufshcd_transfer_req_compl h).2 = .handled := by
    unfold ufshcd_transfer_req_compl
    simp [hc0]
  obtain ⟨hm, hb, hc⟩ := foldl_compl_processed
    (h.tr_doorbell ^^^ h.outstanding_reqs) i (List.range h.nutrs) h
    (List.mem_range.mpr hi) hbit hcmd
  obtain ⟨hfo, _⟩ := foldl_compl_out_db
    (h.tr_doorbell ^^^ h.outstanding_reqs) (List.range h.nutrs) h
  rw [hres1]
  refine ⟨hm, hb, hc, ?_, hres2⟩
  show (((List.range h.nutrs).foldl
      (compl_one (h.tr_doorbell ^^^ h.outstanding_reqs)) h).outstanding_reqs
        ^^^ (h.tr_doorbell ^^^ h.outstanding_reqs)).testBit i = false
  rw [hfo, Nat.testBit_xor, hbit, hout]
  rfl

/-- C4: reconciliation is idempotent — after one run, the outstanding mask
equals the doorbell snapshot, so a second run with an unchanged doorbell
register computes an empty completed set, reports IRQ_NONE, and changes
nothing: no duplicate notification, no double tag release, no further
change to the outstanding mask. -/
theorem transfer_reconcile_idempotent (h : Hba) :
    ufshcd_transfer_req_compl ((ufshcd_transfer_req_compl h).1) =
      ((ufshcd_transfer_req_compl h).1, IrqRet.notHandled) := by
  have hkey : ((ufshcd_transfer_req_compl h).1).tr_doorbell ^^^
      ((ufshcd_transfer_req_compl h).1).outstanding_reqs = 0 := by
    by_cases hc0 : h.tr_doorbell ^^^ h.outstanding_reqs = 0
    · have hres : (ufshcd_transfer_req_compl h).1 = h := by
        unfold ufshcd_transfer_req_compl
        simp [hc0]
      rw [hres]
      exact hc0
    · have hres : (ufshcd_transfer_req_compl h).1 =
          { (List.range h.nutrs).foldl
              (compl_one (h.tr_doorbell ^^^ h.outstanding_reqs)) h with
            outstanding_reqs :=
              ((List.range h.nutrs).foldl
                (compl_one (h.tr_doorbell ^^^ h.outstanding_reqs)) h).outstanding_reqs
                ^^^ (h.tr_doorbell ^^^ h.outstanding_reqs) } := by
        unfold ufshcd_transfer_req_compl __ufshcd_transfer_req_compl
        simp [hc0]
      rw [hres]
      obtain ⟨hfo, hft⟩ := foldl_compl_out_db
        (h.tr_doorbell ^^^ h.outstanding_reqs) (List.range h.nutrs) h
      show ((List.range h.nutrs).foldl
          (compl_one (h.tr_doorbell ^^^ h.outstanding_reqs)) h).tr_doorbell ^^^
        (((List.range h.nutrs).foldl
          (compl_one (h.tr_doorbell ^^^ h.outstanding_reqs)) h).outstanding_reqs
            ^^^ (h.tr_doorbell ^^^ h.outstanding_reqs)) = 0
      rw [hfo, hft]
      have : h.outstanding_reqs ^^^ (h.tr_doorbell ^^^ h.outstanding_reqs) =
          h.tr_doorbell := by
        rw [Nat.xor_comm h.tr_doorbell h.outstanding_reqs, ← Nat.xor_assoc,
          Nat.xor_self, Nat.zero_xor]
      rw [this, Nat.xor_self]
  set h1 := (ufshcd_transfer_req_compl h).1 with hh1
  unfold ufshcd_transfer_req_compl
  simp only []
  rw [hkey]
  simp

/-- C2 (amended): on every reachable state of the gating machine, the
state is never CLKS_OFF while any transfer slot holds an in-flight
command, any task outstanding bit is set, a UIC command is active, or a
power-mode transition is under way; and the gate-off worker re-validates
exactly these conditions (claimed slots via lrb_in_use, outstanding
tasks, UIC activity) under the host lock (the locked section embedded by
ufshcd_gate_work_check) before it proceeds to cut power.  The raw
outstanding_reqs mask is not protected: see
clk_gating_off_with_outstanding_bit. -/
theorem clk_gating_never_off_while_busy :
    (∀ h : Hba, Reachable h → h.clk_gating_state = .CLKS_OFF →
      (∀ i, (h.lrb i).cmd = false) ∧ h.outstanding_tasks = 0 ∧
      h.active_uic_cmd = false ∧ h.uic_async_done = false) ∧
    (∀ h : Hba, h.gate_pc = .idle →
      (ufshcd_gate_work_check h).gate_pc = .checked →
      h.clk_gating_state = .REQ_CLKS_OFF ∧ h.active_reqs = 0 ∧
      h.is_suspended = false ∧ h.lrb_in_use = 0 ∧ h.outstanding_tasks = 0 ∧
      h.active_uic_cmd = false ∧ h.uic_async_done = false) := by
  constructor
  · intro h hr hclk
    obtain ⟨ha, hbt, hpc3, hoffidle, he, hfc⟩ := Inv_reachable hr
    refine ⟨hfc (Or.inr hclk), hbt (Or.inr hclk), ?_, ?_⟩
    · cases hx : h.active_uic_cmd
      · rfl
      · exfalso
        have hhib := hpc3 (Or.inr hclk) (Or.inl hx)
        have hidle := hoffidle hclk
        rw [hidle] at hhib
        cases hhib
    · cases hx : h.uic_async_done
      · rfl
      · exfalso
        have hhib := hpc3 (Or.inr hclk) (Or.inr hx)
        have hidle := hoffidle hclk
        rw [hidle] at hhib
        cases hhib
  · intro h hidle hpass
    unfold ufshcd_gate_work_check at hpass
    split at hpass
    · rw [hidle] at hpass
      cases hpass
    · split at hpass
      · rw [hidle] at hpass
        cases hpass
      · split at hpass
        · rw [hidle] at hpass
          cases hpass
        · rename_i hnotoff hreqoff hquiet
          push_neg at hreqoff hquiet
          refine ⟨hreqoff.2, hquiet.1, ?_, hquiet.2.2.1, hquiet.2.2.2.1, ?_, ?_⟩
          · simpa using hreqoff.1
          · simpa using hquiet.2.2.2.2.1
          · simpa using hquiet.2.2.2.2.2

/-- A concrete run of the gating machine down to CLKS_OFF: take a gating
reference, release it (queueing the deferred gate work), run the gate
work, skip hibern8, and commit the gate. -/
def gdemo0 : Hba := initHba 4

def gdemo1 : Hba := { gdemo0 with active_reqs := gdemo0.active_reqs + 1 }

def gdemo2 : Hba := ufshcd_release_locked gdemo1

def gdemo3 : Hba := ufshcd_gate_work_check gdemo2

def gdemo4 : Hba := { gdemo3 with gate_pc := .ready }

def gdemo5 : Hba :=
  { gdemo4 with gate_pc := .idle,
                clk_gating_state :=
                  if gdemo4.clk_gating_state = ClkState.REQ_CLKS_OFF
                  then ClkState.CLKS_OFF else gdemo4.clk_gating_state }

theorem gdemo5_reachable : Reachable gdemo5 :=
  Reachable.step
    (Reachable.step
      (Reachable.step
        (Reachable.step
          (Reachable.step (Reachable.start 4) (Step.hold_clks_on gdemo0 rfl))
          (Step.release gdemo1 (by decide)))
        (Step.gate_run gdemo2 (by decide) (by decide)))
      (Step.gate_skip_hib gdemo3 (by decide)))
    (Step.gate_commit gdemo4 (by decide))

/-- Witness for C2: the demo run ends in CLKS_OFF with slot 0 empty and
nothing outstanding, and the gate-work validation on the post-release
state certifies the quiescence conditions. -/
theorem clk_gating_never_off_while_busy_witness :
    ((gdemo5.lrb 0).cmd = false ∧ gdemo5.outstanding_tasks = 0 ∧
      gdemo5.active_uic_cmd = false ∧ gdemo5.uic_async_done = false) ∧
    (gdemo2.clk_gating_state = .REQ_CLKS_OFF ∧ gdemo2.active_reqs = 0 ∧
      gdemo2.is_suspended = false ∧ gdemo2.lrb_in_use = 0 ∧
      gdemo2.outstanding_tasks = 0 ∧ gdemo2.active_uic_cmd = false ∧
      gdemo2.uic_async_done = false) := by
  have r := clk_gating_never_off_while_busy.1 gdemo5 gdemo5_reachable (by decide)
  exact ⟨⟨r.1 0, r.2.1, r.2.2.1, r.2.2.2⟩,
    clk_gating_never_off_while_busy.2 gdemo2 (by decide) (by decide)⟩

/-- The dev-cmd timeout run with a stuck doorbell bit: claim tag 0 under
a hold, ring the doorbell, time out while the device never clears the
doorbell bit (ufshcd_clear_cmd failed), force-clear the outstanding bit
(ufshcd_wait_for_dev_cmd:3009) and drop the tag, let the next
reconciliation pass fold the stale doorbell bit back into
outstanding_reqs via the XOR, then release the last gating reference and
run the gate work down to CLKS_OFF. -/
def cex0 : Hba := initHba 4

def cex1 : Hba := { cex0 with active_reqs := cex0.active_reqs + 1 }

def cex2 : Hba := { cex1 with lrb_in_use := setBit cex1.lrb_in_use 0 }

def cex3 : Hba :=
  { cex2 with outstanding_reqs := setBit cex2.outstanding_reqs 0,
              tr_doorbell := setBit cex2.tr_doorbell 0 }

def cex4 : Hba := { cex3 with outstanding_reqs := clearBit cex3.outstanding_reqs 0 }

def cex5 : Hba := { cex4 with lrb_in_use := clearBit cex4.lrb_in_use 0 }

def cex6 : Hba := (ufshcd_transfer_req_compl cex5).1

def cex7 : Hba := ufshcd_release_locked cex6

def cex8 : Hba := ufshcd_gate_work_check cex7

def cex9 : Hba := { cex8 with gate_pc := .ready }

def cex10 : Hba :=
  { cex9 with gate_pc := .idle,
              clk_gating_state :=
                if cex9.clk_gating_state = ClkState.REQ_CLKS_OFF
                then ClkState.CLKS_OFF else cex9.clk_gating_state }

theorem cex10_reachable : Reachable cex10 :=
  Reachable.step
    (Reachable.step
      (Reachable.step
        (Reachable.step
          (Reachable.step
            (Reachable.step
              (Reachable.step
                (Reachable.step
                  (Reachable.step
                    (Reachable.step (Reachable.start 4)
                      (Step.hold_clks_on cex0 rfl))
                    (Step.claim_tag cex1 0 (by decide)))
                  (Step.send_command cex2 0 (by decide) (by decide)
                    (Or.inl rfl)))
                (Step.outstanding_clear cex3 0))
              (Step.release_tag cex4 0 rfl (by decide)))
            (Step.irq_compl cex5))
          (Step.release cex6 (by decide)))
        (Step.gate_run cex7 (by decide) (by decide)))
      (Step.gate_skip_hib cex8 (by decide)))
    (Step.gate_commit cex9 (by decide))

/-- Counterexample to the original C2: the machine reaches CLKS_OFF with
a transfer outstanding bit still set.  A device-management command times
out with its doorbell bit stuck; ufshcd_wait_for_dev_cmd clears the
outstanding bit unconditionally (3009) and the tag is released; the next
reconciliation XOR (completed = doorbell ^ outstanding) re-sets the
outstanding bit; and neither __ufshcd_release (1970-1973) nor
ufshcd_gate_work (1907-1910) consults outstanding_reqs, so the clocks
are cut. -/
theorem clk_gating_off_with_outstanding_bit :
    Reachable cex10 ∧ cex10.clk_gating_state = .CLKS_OFF ∧
    cex10.outstanding_reqs ≠ 0 :=
  ⟨cex10_reachable, by decide, by decide⟩

/-- A two-slot adapter with one outstanding completed command at tag 0
(doorbell bit cleared by the device). -/
def c1demo : Hba :=
  { initHba 2 with
    lrb := fun j => if j = 0 then ⟨true, false, .SUCCESS, .response .GOOD⟩
                    else emptyLrb,
    lrb_in_use := 1,
    outstanding_reqs := 1,
    tr_doorbell := 0,
    active_reqs := 1 }

/-- Witness for C1 at the concrete adapter c1demo, tag 0. -/
theorem transfer_reconcile_completes_every_bit_witness :
    (0, ufshcd_transfer_rsp_status (c1demo.lrb 0)) ∈
      (ufshcd_transfer_req_compl c1demo).1.doneCalls ∧
    (ufshcd_transfer_req_compl c1demo).1.lrb_in_use.testBit 0 = false ∧
    ((ufshcd_transfer_req_compl c1demo).1.lrb 0).cmd = false ∧
    (ufshcd_transfer_req_compl c1demo).1.outstanding_reqs.testBit 0 = false ∧
    (ufshcd_transfer_req_compl c1demo).2 = .handled :=
  transfer_reconcile_completes_every_bit c1demo 0 (by decide) (by decide)
    (by decide) (by decide)

/-! ## Tag acquisition over the shared bitmap (C3) -/

/-- The atomic test_and_set_bit_lock primitive: read the bit and set it,
as one indivisible operation; the Boolean is the previous value. -/
def test_and_set_bit_lock (i : Nat) (m : Nat) : Bool × Nat :=
  (m.testBit i, setBit m i)

/-- Ghost ownership state for the shared lrb_in_use bitmap: for each tag,
the list of submitters currently holding it. -/
structure TagState where
  bitmap : Nat
  holders : Nat → List Nat

/-- Concurrent interleavings of the two acquisition paths
(ufshcd_queuecommand:2764 and ufshcd_get_dev_cmd_tag:3040) and of release
(clear_bit_unlock): every acquisition is one atomic test_and_set; a
claimant that sees the bit already set requeues or retries without
acquiring. -/
inductive TagStep : TagState → TagState → Prop
  | acquire_ok (s : TagState) (tag owner : Nat)
      (hfree : (test_and_set_bit_lock tag s.bitmap).1 = false) :
      TagStep s { bitmap := (test_and_set_bit_lock tag s.bitmap).2,
                  holders := fun t => if t = tag then owner :: s.holders tag
                             else s.holders t }
  | acquire_busy (s : TagState) (tag : Nat)
      (hbusy : (test_and_set_bit_lock tag s.bitmap).1 = true) :
      TagStep s s
  | release (s : TagState) (tag : Nat) (hheld : s.holders tag ≠ []) :
      TagStep s { bitmap := clearBit s.bitmap tag,
                  holders := fun t => if t = tag then [] else s.holders t }

def initTags : TagState := ⟨0, fun _ => []⟩

inductive TagReachable : TagState → Prop
  | start : TagReachable initTags
  | step {a b : TagState} : TagReachable a → TagStep a b → TagReachable b

def TagInv (s : TagState) : Prop :=
  ∀ t, (s.holders t).length ≤ 1 ∧
    (s.bitmap.testBit t = false → s.holders t = [])

theorem setBit_eq_of_testBit {m i : Nat} (hm : m.testBit i = true) :
    setBit m i = m := by
  apply Nat.eq_of_testBit_eq
  intro j
  rw [testBit_setBit]
  by_cases hij : i = j
  · subst hij
    rw [hm]
    rfl
  · simp [hij]

theorem TagInv_step {a b : TagState} (hs : TagStep a b) : TagInv a → TagInv b := by
  cases hs with
  | acquire_ok tag owner hfree =>
    intro hI t
    by_cases ht : t = tag
    · subst ht
      have hempty : a.holders t = [] := (hI t).2 hfree
      constructor
      · show (if t = t then owner :: a.holders t else a.holders t).length ≤ 1
        rw [if_pos rfl, hempty]
        simp
      · intro hbit
        exfalso
        have : (setBit a.bitmap t).testBit t = false := hbit
        rw [testBit_setBit_self] at this
        cases this
    · constructor
      · show (if t = tag then owner :: a.holders tag else a.holders t).length ≤ 1
        rw [if_neg ht]
        exact (hI t).1
      · intro hbit
        show (if t = tag then owner :: a.holders tag else a.holders t) = []
        rw [if_neg ht]
        apply (hI t).2
        have : (setBit a.bitmap tag).testBit t = false := hbit
        rwa [testBit_setBit_ne _ (fun e => ht e.symm)] at this
  | acquire_busy tag hbusy =>
    exact fun hI => hI
  | release tag hheld =>
    intro hI t
    by_cases ht : t = tag
    · subst ht
      exact ⟨by simp, fun _ => by simp⟩
    · constructor
      · show (if t = tag then [] else a.holders t).length ≤ 1
        rw [if_neg ht]
        exact (hI t).1
      · intro hbit
        show (if t = tag then [] else a.holders t) = []
        rw [if_neg ht]
        apply (hI t).2
        have : (clearBit a.bitmap tag).testBit t = false := hbit
        rwa [testBit_clearBit_ne _ (fun e => ht e.symm)] at this

theorem TagInv_reachable {s : TagState} (hr : TagReachable s) : TagInv s := by
  induction hr with
  | start => exact fun t => ⟨Nat.zero_le 1, fun _ => rfl⟩
  | step _ hs ih => exact TagInv_step hs ih

/-- C3: no tag is ever held by two submitters simultaneously — on every
reachable ownership state at most one submitter holds each tag; and the
test-and-set acquisition is what enforces it: an acquisition on a tag
whose bit is already set reports busy and leaves the bitmap unchanged, so
the second claimant requeues or retries instead of double-allocating. -/
theorem no_double_tag_allocation :
    (∀ s : TagState, TagReachable s → ∀ t, (s.holders t).length ≤ 1) ∧
    (∀ m i : Nat, m.testBit i = true →
      (test_and_set_bit_lock i m).1 = true ∧
      (test_and_set_bit_lock i m).2 = m) := by
  constructor
  · intro s hr t
    exact (TagInv_reachable hr t).1
  · intro m i hm
    exact ⟨hm, setBit_eq_of_testBit hm⟩

/-- One submitter (id 7) acquires tag 0. -/
def tagsDemo : TagState :=
  { bitmap := (test_and_set_bit_lock 0 initTags.bitmap).2,
    holders := fun t => if t = 0 then 7 :: initTags.holders 0
               else initTags.holders t }

theorem tagsDemo_reachable : TagReachable tagsDemo :=
  TagReachable.step TagReachable.start
    (TagStep.acquire_ok initTags 0 7 (by decide))

/-- Witness for C3: the single-holder bound on a concrete reachable
state, and the busy outcome of a test-and-set on an occupied bitmap. -/
theorem no_double_tag_allocation_witness :
    (tagsDemo.holders 0).length ≤ 1 ∧
    ((test_and_set_bit_lock 3 0b1000).1 = true ∧
      (test_and_set_bit_lock 3 0b1000).2 = 0b1000) :=
  ⟨no_double_tag_allocation.1 tagsDemo tagsDemo_reachable 0,
   no_double_tag_allocation.2 0b1000 3 (by decide)⟩

/-! ## UIC command timeout versus late completion (C5) -/

/-- The fields of struct uic_command read on the timeout path. -/
structure UicCommand where
  argument2 : Nat
  cmd_active : Bool
deriving DecidableEq, Repr

/-- MASK_UIC_COMMAND_RESULT (ufshci.h, outside this snapshot). -/
def MASK_UIC_COMMAND_RESULT : Nat := 0xFF

/-- ufshcd_wait_for_uic_cmd (ufshcd.c:2327-2354): wait with a fixed
timeout; on completion return argument2 masked by the command-result
mask; on timeout set ret = -ETIMEDOUT, but if the completion handler has
already marked the command inactive (cmd_active cleared by a late
interrupt), return the already-delivered result instead. -/
def ufshcd_wait_for_uic_cmd (completed_in_time : Bool) (cmd : UicCommand) : Int :=
  if completed_in_time then
    ((cmd.argument2 &&& MASK_UIC_COMMAND_RESULT : Nat) : Int)
  else if cmd.cmd_active then -ETIMEDOUT
  else ((cmd.argument2 &&& MASK_UIC_COMMAND_RESULT : Nat) : Int)

/-- Which continuation ufshcd_uic_pwr_ctrl takes after the bounded wait
(ufshcd.c:4226-4242): proceed to read UPMCRS, or fail with -ETIMEDOUT. -/
inductive PwrWaitPath
  | checkUpmcrs | timeoutFail
deriving DecidableEq, Repr

/-- The timeout re-check of ufshcd_uic_pwr_ctrl (4226-4240): if the wait
completed, go to check_upmcrs; on timeout, if the command was concurrently
marked inactive go to check_upmcrs anyway, else return -ETIMEDOUT. -/
def ufshcd_uic_pwr_ctrl_timeout_path (completed_in_time cmd_active : Bool) :
    PwrWaitPath :=
  if completed_in_time then .checkUpmcrs
  else if cmd_active then .timeoutFail
  else .checkUpmcrs

/-- ufshcd_uic_cmd_compl (5357-5383), restricted to its effect on the
cmd_active flag: a UIC_COMMAND_COMPL interrupt with an active command and
no uic_async_done waiter clears cmd_active; a power-status interrupt
(UFSHCD_UIC_PWR_MASK) with a uic_async_done waiter clears cmd_active of
the active command. -/
def ufshcd_uic_cmd_compl_cmd_active (uccs pwr has_active uic_async cmd_active : Bool) :
    Bool :=
  let ca := if uccs && has_active && !uic_async then false else cmd_active
  if pwr && uic_async && has_active then false else ca

/-- C5: on a link-control command timeout, the implementation re-checks
the cmd_active flag; if a late interrupt already completed the command, it
returns the delivered result (never -ETIMEDOUT), and the power-mode path
proceeds to read the power-mode-change status instead of failing; the
interrupt handler is what clears cmd_active in both completion shapes. -/
theorem uic_timeout_salvages_late_completion :
    (∀ cmd : UicCommand, cmd.cmd_active = false →
      ufshcd_wait_for_uic_cmd false cmd =
        ((cmd.argument2 &&& MASK_UIC_COMMAND_RESULT : Nat) : Int) ∧
      ufshcd_wait_for_uic_cmd false cmd ≠ -ETIMEDOUT) ∧
    ufshcd_uic_pwr_ctrl_timeout_path false false = .checkUpmcrs ∧
    (∀ ca : Bool, ufshcd_uic_cmd_compl_cmd_active true false true false ca = false) ∧
    (∀ ca : Bool, ufshcd_uic_cmd_compl_cmd_active false true true true ca = false) := by
  refine ⟨?_, rfl, fun ca => rfl, fun ca => rfl⟩
  intro cmd hca
  have hval : ufshcd_wait_for_uic_cmd false cmd =
      ((cmd.argument2 &&& MASK_UIC_COMMAND_RESULT : Nat) : Int) := by
    unfold ufshcd_wait_for_uic_cmd
    rw [hca]
    simp
  refine ⟨hval, ?_⟩
  rw [hval]
  intro habs
  unfold ETIMEDOUT at habs
  omega

/-- Witness for C5 at a concrete timed-out command whose completion
arrived late. -/
theorem uic_timeout_salvages_late_completion_witness :
    ufshcd_wait_for_uic_cmd false ⟨0x142, false⟩ =
      ((0x142 &&& MASK_UIC_COMMAND_RESULT : Nat) : Int) ∧
    ufshcd_wait_for_uic_cmd false ⟨0x142, false⟩ ≠ -ETIMEDOUT :=
  uic_timeout_salvages_late_completion.1 ⟨0x142, false⟩ rfl

/-! ## Submission-path run-state dispatch (C7) -/

/-- C7: while recovery is in progress (run state RESET, or fatal-scheduled
outside PM ops) a submitted command is rejected with the retryable
SCSI_MLQUEUE_HOST_BUSY classification; in the terminal ERROR state it is
completed with the non-retryable DID_ERROR classification; in neither case
is it issued to the hardware. -/
theorem queuecommand_rejects_during_recovery :
    (∀ pm : Bool, ufshcd_queuecommand_dispatch .RESET pm = .hostBusy ∧
      ufshcd_queuecommand_dispatch .RESET pm ≠ .issued) ∧
    (ufshcd_queuecommand_dispatch .EH_SCHEDULED_FATAL false = .hostBusy ∧
      ufshcd_queuecommand_dispatch .EH_SCHEDULED_FATAL false ≠ .issued) ∧
    (∀ pm : Bool, ufshcd_queuecommand_dispatch .ERROR pm =
        .completedErr .DID_ERROR ∧
      ufshcd_queuecommand_dispatch .ERROR pm ≠ .issued) := by
  refine ⟨fun pm => ⟨rfl, ?_⟩, ⟨rfl, by decide⟩, fun pm => ⟨rfl, ?_⟩⟩ <;>
    (intro habs; cases habs)

/-- Witness for C7 at concrete inputs. -/
theorem queuecommand_rejects_during_recovery_witness :
    (ufshcd_queuecommand_dispatch .RESET false = .hostBusy ∧
      ufshcd_queuecommand_dispatch .RESET false ≠ .issued) ∧
    (ufshcd_queuecommand_dispatch .ERROR true = .completedErr .DID_ERROR ∧
      ufshcd_queuecommand_dispatch .ERROR true ≠ .issued) :=
  ⟨queuecommand_rejects_during_recovery.1 false,
   queuecommand_rejects_during_recovery.2.2 true⟩

/-! ## Submission ordering and the memory barrier (C8) -/

/-- C8 counterexample: in the transfer-ring submission path no memory
barrier lies between marking the outstanding bit and the doorbell write —
the barriers are issued before the outstanding-bit mark (after building
the descriptors) and after the doorbell write. -/
theorem submit_no_barrier_between_mark_and_doorbell :
    ¬ actBetween ufshcd_queuecommand_submit_trace
      .markOutstanding .memBarrier .doorbellWrite := by
  decide

/-- C8 (amended): the submission path performs, in order: descriptor
header write, scatter-gather build, memory barrier, outstanding-bit mark,
doorbell write, memory barrier.  The barrier falls between building the
descriptors and marking the outstanding bit, not between the mark and the
doorbell write. -/
theorem submit_order :
    ufshcd_queuecommand_submit_trace =
      [.writeDescriptor, .buildSgTable, .memBarrier,
       .markOutstanding, .doorbellWrite, .memBarrier] ∧
    actBetween ufshcd_queuecommand_submit_trace
      .buildSgTable .memBarrier .markOutstanding ∧
    actBetween ufshcd_queuecommand_submit_trace
      .markOutstanding .doorbellWrite .memBarrier ∧
    ¬ actBetween ufshcd_queuecommand_submit_trace
      .markOutstanding .memBarrier .doorbellWrite := by
  refine ⟨rfl, ?_, ?_, ?_⟩ <;> decide

/-! ## Tag selection order (C9) -/

/-- The find_last_bit fold with an explicit initial accumulator. -/
def lastFreeAux (m n init : Nat) : Nat :=
  (List.range n).foldl (fun acc i => if m.testBit i = false then i else acc) init

theorem find_last_free_eq (nutrs m : Nat) :
    find_last_free nutrs m = lastFreeAux m nutrs nutrs := rfl

theorem lastFreeAux_succ (m k init : Nat) :
    lastFreeAux m (k + 1) init =
      if m.testBit k = false then k else lastFreeAux m k init := by
  unfold lastFreeAux
  rw [List.range_succ, List.foldl_append]
  rfl

theorem lastFreeAux_spec (m : Nat) : ∀ n init : Nat,
    (lastFreeAux m n init = init ∧ ∀ j, j < n → m.testBit j = true) ∨
    (lastFreeAux m n init < n ∧ m.testBit (lastFreeAux m n init) = false ∧
      ∀ j, lastFreeAux m n init < j → j < n → m.testBit j = true) := by
  intro n
  induction n with
  | zero =>
    intro init
    left
    exact ⟨rfl, fun j hj => absurd hj (Nat.not_lt_zero j)⟩
  | succ k ih =>
    intro init
    rw [lastFreeAux_succ]
    cases hbit : m.testBit k with
    | false =>
      rw [if_pos rfl]
      right
      refine ⟨Nat.lt_succ_self k, hbit, fun j h1 h2 => ?_⟩
      exact absurd (Nat.lt_of_lt_of_le h1 (Nat.le_of_lt_succ h2)) (lt_irrefl k)
    | true =>
      rw [if_neg (by simp)]
      rcases ih init with ⟨heq, hall⟩ | ⟨hlt, hfree, hafter⟩
      · left
        refine ⟨heq, fun j hj => ?_⟩
        rcases Nat.lt_succ_iff_lt_or_eq.mp hj with hj | hj
        · exact hall j hj
        · subst hj
          exact hbit
      · right
        refine ⟨Nat.lt_succ_of_lt hlt, hfree, fun j h1 h2 => ?_⟩
        rcases Nat.lt_succ_iff_lt_or_eq.mp h2 with h2 | h2
        · exact hafter j h1 h2
        · subst h2
          exact hbit

/-- C9 counterexample: a data-command submission does not pick the lowest
free tag — on an all-free 8-slot bitmap, a command whose block-layer tag
is 5 claims tag 5 although the lowest free tag is 0. -/
theorem data_path_not_lowest_free :
    ufshcd_queuecommand_claim 8 0 5 = some (5, 32) ∧
    find_first_free 8 0 = 0 ∧ (5 : Nat) ≠ 0 := by
  decide

/-- C9 (amended): the device-management acquisition selects the highest
free tag of the bitmap (find_last_bit over the free tags), while the
data-command path claims exactly the tag already assigned by the block
layer (cmd->request->tag), performing no free-tag search of its own. -/
theorem tag_allocation_order :
    (∀ nutrs m t b : Nat, ufshcd_get_dev_cmd_tag nutrs m = some (t, b) →
      t < nutrs ∧ m.testBit t = false ∧
      (∀ j, t < j → j < nutrs → m.testBit j = true) ∧ b = setBit m t) ∧
    (∀ nutrs m reqTag t b : Nat,
      ufshcd_queuecommand_claim nutrs m reqTag = some (t, b) →
      t = reqTag ∧ reqTag < nutrs ∧ m.testBit reqTag = false ∧
      b = setBit m reqTag) := by
  constructor
  · intro nutrs m t b hsome
    unfold ufshcd_get_dev_cmd_tag at hsome
    split at hsome
    · cases hsome
    · rename_i hnotge
      have hlt : find_last_free nutrs m < nutrs := Nat.lt_of_not_le hnotge
      simp only [Option.some.injEq, Prod.mk.injEq] at hsome
      obtain ⟨ht, hb⟩ := hsome
      subst ht
      subst hb
      rcases lastFreeAux_spec m nutrs nutrs with ⟨heq, _⟩ | ⟨_, hfree, hafter⟩
      · exfalso
        rw [find_last_free_eq, heq] at hlt
        exact lt_irrefl nutrs hlt
      · rw [find_last_free_eq] at hlt ⊢
        exact ⟨hlt, hfree, hafter, rfl⟩
  · intro nutrs m reqTag t b hsome
    unfold ufshcd_queuecommand_claim at hsome
    split at hsome
    · cases hsome
    · split at hsome
      · cases hsome
      · rename_i hnotge hnotbit
        simp only [Option.some.injEq, Prod.mk.injEq] at hsome
        obtain ⟨ht, hb⟩ := hsome
        subst ht
        subst hb
        refine ⟨rfl, Nat.lt_of_not_le hnotge, ?_, rfl⟩
        cases hx : m.testBit reqTag
        · rfl
        · exact absurd hx hnotbit

/-- Witness for C9 (amended): on the bitmap 0b0101 with four slots the
device-management path picks the highest free tag 3; the data path with
request tag 1 claims tag 1. -/
theorem tag_allocation_order_witness :
    (3 < 4 ∧ (0b0101 : Nat).testBit 3 = false ∧
      (∀ j, 3 < j → j < 4 → (0b0101 : Nat).testBit j = true) ∧
      (0b1101 : Nat) = setBit 0b0101 3) ∧
    ((1 : Nat) = 1 ∧ 1 < 4 ∧ (0b0101 : Nat).testBit 1 = false ∧
      (0b0111 : Nat) = setBit 0b0101 1) :=
  ⟨tag_allocation_order.1 4 0b0101 3 0b1101 (by decide),
   tag_allocation_order.2 4 0b0101 1 1 0b0111 (by decide)⟩

/-! ## Clock/gear scaling (C6) -/

/-- The externally visible operations of a scale attempt, in invocation
order. -/
inductive ScaleAct
  | clk_notify_pre (scale_up : Bool)   -- ufshcd_vops_clk_scale_notify PRE_CHANGE
  | clk_set_freq (scale_up : Bool)     -- ufshcd_set_clk_freq
  | clk_notify_post (scale_up : Bool)  -- ufshcd_vops_clk_scale_notify POST_CHANGE
  | gear_scale (scale_up : Bool)       -- ufshcd_scale_gear
  | barrier_acquire                    -- down_write(&hba->clk_scaling_lock)
  | barrier_release                    -- up_write(&hba->clk_scaling_lock)
  | wb_ctrl (scale_up : Bool)          -- ufshcd_wb_ctrl
deriving DecidableEq, Repr

/-- ufshcd_scale_clks (ufshcd.c:1113-1132), with the outcome of each step
injected: PRE_CHANGE notify, then set_clk_freq, then POST_CHANGE notify;
if the POST_CHANGE notify fails, the frequency change is rolled back
(ufshcd_set_clk_freq with the opposite direction) before returning the
error.  Returns (succeeded, trace of invocations). -/
def ufshcd_scale_clks (scale_up pre_ok freq_ok post_ok : Bool) :
    Bool × List ScaleAct :=
  if !pre_ok then (false, [.clk_notify_pre scale_up])
  else if !freq_ok then
    (false, [.clk_notify_pre scale_up, .clk_set_freq scale_up])
  else if !post_ok then
    (false, [.clk_notify_pre scale_up, .clk_set_freq scale_up,
             .clk_notify_post scale_up, .clk_set_freq (!scale_up)])
  else
    (true, [.clk_notify_pre scale_up, .clk_set_freq scale_up,
            .clk_notify_post scale_up])

/-- ufshcd_devfreq_scale (ufshcd.c:1321-1372), with per-step outcomes
injected (prepare_ok is the drain barrier of
ufshcd_clock_scaling_prepare, which releases the barrier itself on
failure; rb_* are the outcomes of the frequency-restoring
ufshcd_scale_clks(hba, false) call of the gear-up failure path).  When
scaling down the gear is reduced before the clocks; when scaling up the
clocks are raised before the gear; on a clock failure while scaling down
the gear is restored (the scale_up_gear label), and on a gear failure
while scaling up the frequency is scaled back down — in both cases before
ufshcd_clock_scaling_unprepare releases the barrier. -/
def ufshcd_devfreq_scale
    (scale_up prepare_ok gear_down_ok pre_ok freq_ok post_ok gear_up_ok
      rb_pre rb_freq rb_post : Bool) : Bool × List ScaleAct :=
  if !prepare_ok then (false, [.barrier_acquire, .barrier_release])
  else if !scale_up && !gear_down_ok then
    (false, [.barrier_acquire, .gear_scale false, .barrier_release])
  else
    if !(ufshcd_scale_clks scale_up pre_ok freq_ok post_ok).1 then
      (false, [.barrier_acquire] ++
        (if !scale_up then [.gear_scale false] else []) ++
        (ufshcd_scale_clks scale_up pre_ok freq_ok post_ok).2 ++
        (if !scale_up then [.gear_scale true] else []) ++
        [.barrier_release])
    else if scale_up && !gear_up_ok then
      (false, [.barrier_acquire] ++
        (ufshcd_scale_clks scale_up pre_ok freq_ok post_ok).2 ++
        [.gear_scale true] ++
        (ufshcd_scale_clks false rb_pre rb_freq rb_post).2 ++
        [.barrier_release])
    else
      (true, [.barrier_acquire] ++
        (if !scale_up then [.gear_scale false] else []) ++
        (ufshcd_scale_clks scale_up pre_ok freq_ok post_ok).2 ++
        (if scale_up then [.gear_scale true] else []) ++
        [.barrier_release, .wb_ctrl scale_up, .barrier_acquire,
         .barrier_release])

/-- C6: gear/frequency ordering and rollback of the scale operation.  For
every injected-outcome environment: when scaling down, any frequency
change is preceded by the gear reduction; when scaling up, any gear raise
is preceded by the frequency raise; when the clock step fails during a
scale-down, the gear is restored before the barrier release; when the
gear step fails during a scale-up, the frequency-restoring scale-down of
the clocks runs before the barrier release (its set_clk_freq(false)
materializing whenever the restore notify and set steps succeed); and
inside ufshcd_scale_clks a POST_CHANGE failure rolls the frequency back
immediately. -/
theorem devfreq_scale_order_and_rollback :
    (∀ p gd a b c gu ra rb rc : Bool,
      ScaleAct.clk_set_freq false ∈
        (ufshcd_devfreq_scale false p gd a b c gu ra rb rc).2 →
      ScaleAct.gear_scale false ∈
        (ufshcd_devfreq_scale false p gd a b c gu ra rb rc).2 ∧
      (ufshcd_devfreq_scale false p gd a b c gu ra rb rc).2.indexOf
          (ScaleAct.gear_scale false) <
        (ufshcd_devfreq_scale false p gd a b c gu ra rb rc).2.indexOf
          (ScaleAct.clk_set_freq false)) ∧
    (∀ p gd a b c gu ra rb rc : Bool,
      ScaleAct.gear_scale true ∈
        (ufshcd_devfreq_scale true p gd a b c gu ra rb rc).2 →
      ScaleAct.clk_set_freq true ∈
        (ufshcd_devfreq_scale true p gd a b c gu ra rb rc).2 ∧
      (ufshcd_devfreq_scale true p gd a b c gu ra rb rc).2.indexOf
          (ScaleAct.clk_set_freq true) <
        (ufshcd_devfreq_scale true p gd a b c gu ra rb rc).2.indexOf
          (ScaleAct.gear_scale true)) ∧
    (∀ a b c gu ra rb rc : Bool, (a && b && c) = false →
      ScaleAct.gear_scale true ∈
        (ufshcd_devfreq_scale false true true a b c gu ra rb rc).2 ∧
      (ufshcd_devfreq_scale false true true a b c gu ra rb rc).2.indexOf
          (ScaleAct.gear_scale true) <
        (ufshcd_devfreq_scale false true true a b c gu ra rb rc).2.indexOf
          ScaleAct.barrier_release) ∧
    (∀ gd rc : Bool,
      ScaleAct.clk_set_freq false ∈
        (ufshcd_devfreq_scale true true gd true true true false true true rc).2 ∧
      (ufshcd_devfreq_scale true true gd true true true false true true rc).2.indexOf
          (ScaleAct.clk_set_freq false) <
        (ufshcd_devfreq_scale true true gd true true true false true true rc).2.indexOf
          ScaleAct.barrier_release) ∧
    (∀ up : Bool, ufshcd_scale_clks up true true false =
      (false, [.clk_notify_pre up, .clk_set_freq up,
               .clk_notify_post up, .clk_set_freq (!up)])) := by
  refine ⟨?_, ?_, ?_, ?_, ?_⟩ <;> decide

/-- Witness for C6 at concrete environments: a scale-down whose clock
step fails at POST_CHANGE restores the gear before releasing the barrier,
and a scale-up whose gear step fails scales the frequency back down
before releasing the barrier. -/
theorem devfreq_scale_order_and_rollback_witness :
    (ScaleAct.gear_scale false ∈
        (ufshcd_devfreq_scale false true true true true true true true true true).2 ∧
      (ufshcd_devfreq_scale false true true true true true true true true true).2.indexOf
          (ScaleAct.gear_scale false) <
        (ufshcd_devfreq_scale false true true true true true true true true true).2.indexOf
          (ScaleAct.clk_set_freq false)) ∧
    (ScaleAct.gear_scale true ∈
        (ufshcd_devfreq_scale false true true true true false true true true true).2 ∧
      (ufshcd_devfreq_scale false true true true true false true true true true).2.indexOf
          (ScaleAct.gear_scale true) <
        (ufshcd_devfreq_scale false true true true true false true true true true).2.indexOf
          ScaleAct.barrier_release) :=
  ⟨devfreq_scale_order_and_rollback.1 true true true true true true true true true
      (by decide),
   devfreq_scale_order_and_rollback.2.2.1 true true false true true true true
      (by decide)⟩

/-! ## Non-blocking hold (C10) -/

/-- An idle adapter whose clocks are gated off. -/
def c10demo : Hba := { initHba 4 with clk_gating_state := .CLKS_OFF }

/-- C10 counterexample: a non-blocking hold on a gated-off adapter fails
with -EAGAIN and restores the active-request counter, but it does not
leave the gating state unchanged — it advances the state to REQ_CLKS_ON
(queueing the ungate work) before returning. -/
theorem hold_async_fail_advances_state :
    (ufshcd_hold_async false false c10demo).1 = -EAGAIN ∧
    (ufshcd_hold_async false false c10demo).2.active_reqs = c10demo.active_reqs ∧
    (ufshcd_hold_async false false c10demo).2.clk_gating_state ≠
      c10demo.clk_gating_state := by
  refine ⟨by decide, by decide, by decide⟩

/-- C10 (amended): every non-blocking (async) hold that returns -EAGAIN
leaves the active-request counter exactly as it was — the increment taken
on entry is undone on each early-return path (though the call may still
have advanced the gating state to REQ_CLKS_ON and queued the ungate
work). -/
theorem hold_async_eagain_preserves_counter (ch lh : Bool) (h : Hba)
    (he : (ufshcd_hold_async ch lh h).1 = -EAGAIN) :
    (ufshcd_hold_async ch lh h).2.active_reqs = h.active_reqs := by
  obtain ⟨n, lf, liu, oreq, otk, db, st, pm, clk, ar, susp, pend, pc, uic,
    asy, dc, dns, dn⟩ := h
  cases clk with
  | CLKS_ON =>
    unfold ufshcd_hold_async at he ⊢
    simp only [] at he ⊢
    by_cases hc : ch = true ∧ lh = true
    · rw [if_pos hc]
      show ar + 1 - 1 = ar
      omega
    · rw [if_neg hc] at he
      have he2 : (0 : Int) = -EAGAIN := he
      simp [EAGAIN] at he2
  | REQ_CLKS_OFF =>
    unfold ufshcd_hold_async at he ⊢
    simp only [] at he ⊢
    by_cases hp : pend = true
    · rw [if_pos hp] at he
      have he2 : (0 : Int) = -EAGAIN := he
      simp [EAGAIN] at he2
    · rw [if_neg hp]
      show ar + 1 - 1 = ar
      omega
  | CLKS_OFF =>
    unfold ufshcd_hold_async
    show ar + 1 - 1 = ar
    omega
  | REQ_CLKS_ON =>
    unfold ufshcd_hold_async
    show ar + 1 - 1 = ar
    omega

/-- Witness for C10 (amended) at the gated-off adapter. -/
theorem hold_async_eagain_preserves_counter_witness :
    (ufshcd_hold_async true true c10demo).2.active_reqs = c10demo.active_reqs :=
  hold_async_eagain_preserves_counter true true c10demo (by decide)

end UFS
